import Mathlib

/-!
# Verification of the nassh relay transport core

Shallow embedding of `nassh_buffer.js` (the ackable FIFO byte buffer) and
`nassh_stream_google_relay.js` (relay session base class, XHR polling
transport, WebSocket transport), together with proofs of the specification
claims about them.

Bytes are modelled as `Nat`; backing stores (`ArrayBuffer`) are `List Nat`
whose length is the capacity; typed-array views are modelled by explicit
offsets into the store.  JavaScript numbers holding byte counts are `Nat`
except where the code can drive them negative (`readCount_`), where `Int`
is used.
-/

namespace Nassh

/-- `(l.drop off).take n` — the contents of the index window `[off, off+n)`
of a backing store, as `Uint8Array.prototype.subarray` sees it. -/
def listSub (l : List Nat) (off n : Nat) : List Nat :=
  (l.drop off).take n

/-- `target.set(src, off)` of JS typed arrays: overwrite `l` starting at
index `off` with `src`.  (JS throws when `off + src.length > l.length`;
every call site below writes within bounds.) -/
def setAt (l : List Nat) (off : Nat) (src : List Nat) : List Nat :=
  l.take off ++ src ++ l.drop (off + src.length)

/-- Resolve a (possibly negative, possibly out of range) JS
`subarray` index against an array of length `len`:
negative indices count from the end, and everything clamps to `[0, len]`. -/
def jsIdx (len : Nat) (i : Int) : Nat :=
  if i < 0 then ((len : Int) + i).toNat else min i.toNat len

/-! ## `nassh.Buffer` (src/nassh/js/nassh_buffer.js) -/

/-- State of a `nassh.Buffer`:
`storage` is `buffer_`/`u8_` (capacity = `storage.length`),
`queued_` is the window `[qOff, qOff+qLen)` of `storage`,
`free_` is the tail window `[fOff, storage.length)`,
`readCount` is `readCount_` (an `Int`: the code can drive it negative),
`autoack` is `autoack_`. -/
structure Buffer where
  storage : List Nat
  qOff : Nat
  qLen : Nat
  fOff : Nat
  readCount : Int
  autoack : Bool
deriving Repr, DecidableEq

/-- `new nassh.Buffer(autoack)`: 32 KiB zeroed storage, empty queue. -/
def Buffer.init (autoack : Bool) : Buffer :=
  { storage := List.replicate (32 * 1024) 0
    qOff := 0
    qLen := 0
    fOff := 0
    readCount := 0
    autoack := autoack }

/-- `getQueuedBytes()`: `queued_.length - readCount_`. -/
def Buffer.getQueuedBytes (s : Buffer) : Int :=
  (s.qLen : Int) - s.readCount

/-- `write(buffer)`.  If the free tail is too small, optionally reallocate
(`(⌊(queued+incoming)/1024⌋+1)*1024`, zero-filled) and copy the queued
bytes (still a view of the *old* storage) to the front; then append the
incoming bytes at the free offset. -/
def Buffer.write (b : List Nat) (s : Buffer) : Buffer :=
  let s1 :=
    if s.storage.length - s.fOff < b.length then
      let storage1 :=
        if s.storage.length < s.qLen + b.length then
          List.replicate (((s.qLen + b.length) / 1024 + 1) * 1024) 0
        else s.storage
      { s with
        storage := setAt storage1 0 (listSub s.storage s.qOff s.qLen)
        qOff := 0
        fOff := s.qLen }
    else s
  { s1 with
    storage := setAt s1.storage s1.fOff b
    fOff := s1.fOff + b.length
    qLen := s1.qLen + b.length }

/-- `ack(length)`.  With pending data left (`length < queued_.length`) the
queue start shifts forward and `readCount_` is decremented (no clamping);
otherwise all views reset and a large storage is shrunk back to 32 KiB. -/
def Buffer.ack (n : Nat) (s : Buffer) : Buffer :=
  if n < s.qLen then
    { s with
      qOff := s.qOff + n
      qLen := s.qLen - n
      readCount := s.readCount - (n : Int) }
  else
    { s with
      storage :=
        if 128 * 1024 ≤ s.storage.length then List.replicate (32 * 1024) 0
        else s.storage
      fOff := 0
      qOff := 0
      qLen := 0
      readCount := 0 }

/-- `read(length)`: the view `queued_.subarray(readCount_, readCount_+length)`
(JS index semantics), advance `readCount_` by the view's length, and in
auto-ack mode immediately `ack` that length. -/
def Buffer.read (n : Nat) (s : Buffer) : List Nat × Buffer :=
  let b := jsIdx s.qLen s.readCount
  let e := jsIdx s.qLen (s.readCount + (n : Int))
  let ret := listSub s.storage (s.qOff + b) (e - b)
  let s1 := { s with readCount := s.readCount + (ret.length : Int) }
  if s.autoack then (ret, Buffer.ack ret.length s1) else (ret, s1)

/-- The bytes currently held by the `queued_` view. -/
def Buffer.queuedBytes (s : Buffer) : List Nat :=
  listSub s.storage s.qOff s.qLen

/-- The queued bytes not yet read (for well-formed states
`queued_[readCount_ ..]`). -/
def Buffer.unread (s : Buffer) : List Nat :=
  listSub s.storage (s.qOff + s.readCount.toNat) (s.qLen - s.readCount.toNat)

/-- Structural well-formedness of a buffer state: the free view starts
where the queued view ends, both lie inside storage, and the read cursor
lies within the queued view. -/
def Buffer.good (s : Buffer) : Prop :=
  s.fOff = s.qOff + s.qLen ∧ s.fOff ≤ s.storage.length ∧
    0 ≤ s.readCount ∧ s.readCount ≤ (s.qLen : Int)

instance (s : Buffer) : Decidable s.good := by
  unfold Buffer.good; infer_instance

/-! ## List window algebra -/


/-- A consumer-visible buffer operation. -/
inductive BufOp where
  | write (b : List Nat)
  | read (n : Nat)
  | ack (n : Nat)
deriving Repr, DecidableEq

/-- Run a sequence of operations, collecting the bytes returned by every
`read` (the consumer-observable byte content). -/
def runOps (s : Buffer) : List BufOp → List (List Nat)
  | [] => []
  | BufOp.write b :: ops => runOps (Buffer.write b s) ops
  | BufOp.read n :: ops => (Buffer.read n s).1 :: runOps (Buffer.read n s).2 ops
  | BufOp.ack n :: ops => runOps (Buffer.ack n s) ops

/-- Run a sequence of operations, returning the final buffer state. -/
def applyOps (s : Buffer) : List BufOp → Buffer
  | [] => s
  | BufOp.write b :: ops => applyOps (Buffer.write b s) ops
  | BufOp.read n :: ops => applyOps (Buffer.read n s).2 ops
  | BufOp.ack n :: ops => applyOps (Buffer.ack n s) ops

/-- Well-formed use of the buffer: each `ack` only releases bytes that were
returned by `read`s earlier in the same sequence and not yet acked
(`c` is that outstanding read credit). -/
def wfOps (s : Buffer) (c : Nat) : List BufOp → Prop
  | [] => True
  | BufOp.write b :: ops => wfOps (Buffer.write b s) c ops
  | BufOp.read n :: ops =>
      wfOps (Buffer.read n s).2 (c + (Buffer.read n s).1.length) ops
  | BufOp.ack n :: ops => n ≤ c ∧ wfOps (Buffer.ack n s) (c - n) ops


/-- Base-class state: `sessionID` is `sessionID_ !== null`,
`backoffTimeout` is `backoffTimeout_ !== null` (a timer is pending),
`streamOpen` is the `nassh.Stream` open flag cleared by `close()`. -/
structure Relay where
  sessionID : Bool
  backoffMS : Nat
  backoffTimeout : Bool
  writeBuffer : Buffer
  writeCount : Nat
  readCount : Nat
  streamOpen : Bool
deriving DecidableEq

/-- Which continuations `requestSuccess_` invoked. -/
structure SuccessOut where
  cancelledTimer : Bool
  ranExpiry : Bool
  resumedRead : Bool
  sentWrite : Bool
deriving Repr, DecidableEq

/-- `requestSuccess_(isRead)`: zero the backoff; a pending backoff timer is
cancelled and `onBackoffExpired_` (which re-runs both `resumeRead_` and
`sendWrite_`) is run at once; otherwise re-invoke the matching side. -/
def Relay.requestSuccess (isRead : Bool) (s : Relay) : Relay × SuccessOut :=
  let s := { s with backoffMS := 0 }
  if s.backoffTimeout then
    ({ s with backoffTimeout := false }, ⟨true, true, true, true⟩)
  else if isRead then (s, ⟨false, false, true, false⟩)
  else (s, ⟨false, false, false, true⟩)

/-- Timer and overlay effects of `requestError_`. -/
structure ErrorOut where
  scheduledTimerMS : Option Nat
  showedRetryMS : Option Nat
deriving Repr, DecidableEq

/-- `requestError_(isRead)`: ignored without a session or with a timer
already pending; otherwise step the backoff duration (1 on first failure,
`prev*2+13` after, values over 10000 remapped to `10000 - v % 9000`),
show the retry overlay for `ms + 500` once `ms ≥ 1000`, and schedule the
one-shot `onBackoffExpired_` timer. -/
def Relay.requestError (isRead : Bool) (s : Relay) : Relay × ErrorOut :=
  if ¬ s.sessionID ∨ s.backoffTimeout then (s, ⟨none, none⟩)
  else
    let ms :=
      if s.backoffMS = 0 then 1
      else
        let v := s.backoffMS * 2 + 13
        if 10000 < v then 10000 - v % 9000 else v
    ({ s with backoffMS := ms, backoffTimeout := true },
     ⟨some ms, if 1000 ≤ ms then some (ms + 500) else none⟩)

/-- `onBackoffExpired_`: clear the timer (it then re-runs `resumeRead_` and
`sendWrite_`, modelled by the callers). -/
def Relay.onBackoffExpired (s : Relay) : Relay :=
  { s with backoffTimeout := false }

/-- One failure/wait round: a request error followed by its backoff timer
firing. -/
def Relay.errorCycle (s : Relay) : Relay :=
  Relay.onBackoffExpired (Relay.requestError false s).1

/-! ## `nassh.Stream.GoogleRelayXHR` — the polling transport -/

/-- `nassh.Stream.GoogleRelayXHR.prototype.maxMessageLength`. -/
def GoogleRelayXHR.maxMessageLength : Nat := 1024

/-- XHR transport state: `writeBusy` is `isRequestBusy_(writeRequest_)`. -/
structure XHR extends Relay where
  writeBusy : Bool
  lastWriteSize : Nat
deriving DecidableEq

/-- The `/write` request issued by `sendWrite_`: the raw bytes read from
the buffer (the URL carries their base64url encoding) and the `wcnt`
parameter. -/
structure XHRSendOut where
  sentData : Option (List Nat)
  sentWcnt : Option Nat
deriving Repr, DecidableEq

/-- `GoogleRelayXHR.prototype.sendWrite_`. -/
def XHR.sendWrite (s : XHR) : XHR × XHRSendOut :=
  if s.writeBuffer.getQueuedBytes = 0 ∨ s.writeBusy then (s, ⟨none, none⟩)
  else if s.backoffTimeout then (s, ⟨none, none⟩)
  else
    let r := Buffer.read GoogleRelayXHR.maxMessageLength s.writeBuffer
    ({ s with writeBuffer := r.2, writeBusy := true,
              lastWriteSize := r.1.length },
     ⟨some r.1, some s.writeCount⟩)

/-- `GoogleRelay.prototype.asyncWrite` (specialised to the XHR transport's
`sendWrite_`): no-op on empty input, else queue and, unless backing off,
send. -/
def XHR.asyncWrite (data : List Nat) (s : XHR) : XHR × XHRSendOut :=
  if data.length = 0 then (s, ⟨none, none⟩)
  else
    let s := { s with writeBuffer := Buffer.write data s.writeBuffer }
    if ¬ s.backoffTimeout then XHR.sendWrite s else (s, ⟨none, none⟩)

/-- Effects of `onWriteDone_`. -/
structure XHRDoneOut where
  closedGone : Bool
  errored : Option ErrorOut
  success : Option SuccessOut
  nextSend : XHRSendOut
  writeCallback : Option Nat
deriving Repr, DecidableEq

/-- `GoogleRelayXHR.prototype.onWriteDone_`, with the request finished at
HTTP `status` (so `writeRequest_` is no longer busy): 410 closes the
stream; other non-200 routes to `onRequestError_` (a write-side error);
200 acks the buffer by `lastWriteSize_`, advances `writeCount_`, reports
success (re-running `sendWrite_` when no timer was pending), then fires
`onWriteSuccess_` with the new `writeCount_`. -/
def XHR.onWriteDone (status : Nat) (s : XHR) : XHR × XHRDoneOut :=
  let s := { s with writeBusy := false }
  if status = 410 then
    ({ s with streamOpen := false }, ⟨true, none, none, ⟨none, none⟩, none⟩)
  else if status ≠ 200 then
    let r := Relay.requestError false s.toRelay
    ({ s with toRelay := r.1 }, ⟨false, some r.2, none, ⟨none, none⟩, none⟩)
  else
    let s := { s with writeBuffer := Buffer.ack s.lastWriteSize s.writeBuffer,
                      writeCount := s.writeCount + s.lastWriteSize }
    let r := Relay.requestSuccess false s.toRelay
    let s := { s with toRelay := r.1 }
    let n := if r.2.sentWrite then XHR.sendWrite s else (s, ⟨none, none⟩)
    (n.1, ⟨false, none, some r.2, n.2, some s.writeCount⟩)

/-- The transport just after a successful `/proxy` handshake: session
established, healthy backoff, empty outbound buffer, zero counters. -/
def XHR.opened : XHR :=
  { sessionID := true
    backoffMS := 0
    backoffTimeout := false
    writeBuffer := Buffer.init false
    writeCount := 0
    readCount := 0
    streamOpen := true
    writeBusy := false
    lastWriteSize := 0 }

/-! ## `nassh.Stream.GoogleRelayWS` — the WebSocket transport -/

/-- `nassh.Stream.GoogleRelayWS.prototype.maxMessageLength`
(-4 for the 32-bit ack sent before the payload). -/
def GoogleRelayWS.maxMessageLength : Nat := 32 * 1024 - 4

/-- WebSocket transport state.  `socketOpen` models
`socket_ && socket_.readyState == 1`; `ackTime = 0` means no send is
awaiting its latency sample, mirroring the `ackTime_` sentinel. -/
structure WS extends Relay where
  socketOpen : Bool
  ackTime : Nat
  expectedAck : Nat
  ackTimes : List Nat
  ackTimesIndex : Nat
  reportAckLatency : Bool
deriving DecidableEq

/-- Big-endian 32-bit read of the first four bytes
(`new DataView(e.data).getUint32(0)`). -/
def beUint32 (l : List Nat) : Nat :=
  l.getD 0 0 * 16777216 + l.getD 1 0 * 65536 + l.getD 2 0 * 256 + l.getD 3 0

/-- Big-endian 32-bit encoding (`DataView.prototype.setUint32`). -/
def toBE4 (n : Nat) : List Nat :=
  [n / 16777216 % 256, n / 65536 % 256, n / 256 % 256, n % 256]

/-- `((ack & 0xffffff) - (writeCount_ & 0xffffff)) & 0xffffff`:
`x & 0xffffff` of a nonnegative JS number is `x % 2^24`, and the final
`& 0xffffff` of the (possibly negative) 32-bit difference is its
nonnegative residue mod `2^24`. -/
def wrapDelta (ack wc : Nat) : Nat :=
  ((((ack % 16777216 : Nat) : Int) - ((wc % 16777216 : Nat) : Int)) % 16777216).toNat

/-- `GoogleRelayWS.prototype.recordAckTime_`: store the sample in the
10-slot circular list; every time it wraps, report the rounded average
(`Math.round` of the float mean) upstream when enabled. -/
def WS.recordAckTime (dt : Nat) (s : WS) : WS × Option Nat :=
  let ackTimes := s.ackTimes.set s.ackTimesIndex dt
  let idx := (s.ackTimesIndex + 1) % ackTimes.length
  let s := { s with ackTimes := ackTimes, ackTimesIndex := idx }
  if idx = 0 then
    let average := (ackTimes.foldl (· + ·) 0 + ackTimes.length / 2) / ackTimes.length
    (s, if s.reportAckLatency then some average else none)
  else (s, none)

/-- Effects of one inbound WebSocket frame. -/
structure WSDataOut where
  threw : Bool
  fatal : Bool
  delta : Nat
  delivered : Option (List Nat)
  latencyReport : Option Nat
  success : Option SuccessOut
deriving Repr, DecidableEq

/-- `GoogleRelayWS.prototype.onSocketData_` on a binary frame (`threw`
models the `DataView` range error on frames shorter than the 4-byte
header).  An ack above the 24-bit range closes the stream and wipes the
session; otherwise sample latency, ack the outbound buffer by the
wrap-aware delta, advance `writeCount_`, deliver any payload (advancing
`readCount_`), and report a write-side request success. -/
def WS.onSocketData (now : Nat) (frame : List Nat) (s : WS) : WS × WSDataOut :=
  if frame.length < 4 then (s, ⟨true, false, 0, none, none, none⟩)
  else
    let ack := beUint32 frame
    if 16777215 < ack then
      ({ s with streamOpen := false, sessionID := false },
       ⟨false, true, 0, none, none, none⟩)
    else
      let l :=
        if s.ackTime ≠ 0 ∧ ack = s.expectedAck then
          let r := WS.recordAckTime (now - s.ackTime) s
          ({ r.1 with ackTime := 0 }, r.2)
        else (s, none)
      let s := l.1
      let delta := wrapDelta ack s.writeCount
      let s := { s with writeBuffer := Buffer.ack delta s.writeBuffer,
                        writeCount := s.writeCount + delta }
      let payload := frame.drop 4
      let s := if payload.length ≠ 0
               then { s with readCount := s.readCount + payload.length } else s
      let r := Relay.requestSuccess false s.toRelay
      ({ s with toRelay := r.1 },
       ⟨false, false, delta,
        if payload.length ≠ 0 then some payload else none, l.2, some r.2⟩)

/-- Effects of `GoogleRelayWS.prototype.sendWrite_`. -/
structure WSSendOut where
  sentFrame : Option (List Nat)
  writeCallback : Option Nat
  scheduledFollowUp : Bool
deriving Repr, DecidableEq

/-- `GoogleRelayWS.prototype.sendWrite_` at time `now`: with an open
socket, queued bytes and no backoff, read up to a frame's worth of
payload, prepend the 4-byte big-endian `readCount_ & 0xffffff` ack
header, send, arm the latency sample (`expectedAck_ = writeCount_ &
0xffffff`), fire `onWriteSuccess_` with the *current* `writeCount_`, and
schedule an async follow-up send if bytes remain queued. -/
def WS.sendWrite (now : Nat) (s : WS) : WS × WSSendOut :=
  if ¬ s.socketOpen ∨ s.writeBuffer.getQueuedBytes = 0 then (s, ⟨none, none, false⟩)
  else if s.backoffTimeout then (s, ⟨none, none, false⟩)
  else
    let r := Buffer.read GoogleRelayWS.maxMessageLength s.writeBuffer
    ({ s with writeBuffer := r.2, ackTime := now,
              expectedAck := s.writeCount % 16777216 },
     ⟨some (toBE4 (s.readCount % 16777216) ++ r.1), some s.writeCount,
      decide (r.2.getQueuedBytes ≠ 0)⟩)


/-- Sequences of `write`/`ack` calls only (no reads), each ack at most the
bytes then queued. -/
def acksLe (s : Buffer) : List BufOp → Prop
  | [] => True
  | BufOp.write b :: ops => acksLe (Buffer.write b s) ops
  | BufOp.ack n :: ops => n ≤ s.qLen ∧ acksLe (Buffer.ack n s) ops
  | BufOp.read _ :: _ => False

/-- Total bytes written by a sequence. -/
def sumWrites : List BufOp → Nat
  | [] => 0
  | BufOp.write b :: ops => b.length + sumWrites ops
  | _ :: ops => sumWrites ops

/-- Total bytes acked by a sequence. -/
def sumAcks : List BufOp → Nat
  | [] => 0
  | BufOp.ack n :: ops => n + sumAcks ops
  | _ :: ops => sumAcks ops


/-- Events driving the WebSocket transport: an outbound send attempt or an
inbound binary frame. -/
inductive WSEv where
  | send (now : Nat)
  | frame (now : Nat) (f : List Nat)
deriving Repr, DecidableEq

/-- Run a sequence of WebSocket transport events. -/
def WS.run (s : WS) : List WSEv → WS
  | [] => s
  | WSEv.send n :: es => WS.run (WS.sendWrite n s).1 es
  | WSEv.frame n f :: es => WS.run (WS.onSocketData n f s).1 es

/-- Total bytes acknowledged by the relay over a sequence of events. -/
def WS.runDeltas (s : WS) : List WSEv → Nat
  | [] => 0
  | WSEv.send n :: es => WS.runDeltas (WS.sendWrite n s).1 es
  | WSEv.frame n f :: es =>
      (WS.onSocketData n f s).2.delta +
        WS.runDeltas (WS.onSocketData n f s).1 es


/-- A concrete open WebSocket transport state with one unread queued byte. -/
def wsSample : WS :=
  { sessionID := true, backoffMS := 0, backoffTimeout := false,
    writeBuffer := Buffer.write [7] (Buffer.init false), writeCount := 0,
    readCount := 0, streamOpen := true, socketOpen := true, ackTime := 0,
    expectedAck := 0, ackTimes := [0, 0, 0, 0, 0, 0, 0, 0, 0, 0],
    ackTimesIndex := 0, reportAckLatency := false }


theorem listSub_length {l : List Nat} {off n : Nat} (h : off + n ≤ l.length) :
    (listSub l off n).length = n := by
  simp only [listSub, List.length_take, List.length_drop]; omega

theorem listSub_zero_len (l : List Nat) : listSub l 0 l.length = l := by
  simp [listSub]

theorem setAt_length {l src : List Nat} {off : Nat} (h : off + src.length ≤ l.length) :
    (setAt l off src).length = l.length := by
  simp only [setAt, List.length_append, List.length_take, List.length_drop]
  omega

theorem listSub_eq_drop_listSub (l : List Nat) (off r n : Nat) :
    listSub l (off + r) (n - r) = (listSub l off n).drop r := by
  simp only [listSub, List.drop_take, List.drop_drop]

/-- Reading back the window just glued in by `setAt`, together with the `m`
bytes of the old list sitting right before it. -/
theorem listSub_setAt_glue {l src : List Nat} {a m : Nat}
    (h2 : a + m + src.length ≤ l.length) :
    listSub (setAt l (a + m) src) a (m + src.length) =
      listSub l a m ++ src := by
  have h3 : (List.take (a + m) l).length = a + m := by
    simp only [List.length_take]; omega
  have h4 : (List.drop a (List.take (a + m) l)).length = m := by
    simp only [List.length_drop, h3]; omega
  simp only [setAt, listSub, List.drop_append_eq_append_drop, h3,
    Nat.sub_self, List.drop_zero, List.take_append_eq_append_take, h4]
  have h5 : a - (a + m) = 0 := by omega
  have h6 : m + src.length - m = src.length := by omega
  have h7 : src.length - src.length = 0 := by omega
  simp only [h5, List.drop_zero, h6, List.take_append_eq_append_take,
    List.take_length, h7, List.take_zero, List.append_nil, List.drop_take]
  have h8 : a + m - a = m := by omega
  rw [h8]
  have h9 : (List.take m (List.drop a l)).length = m := by
    simp only [List.length_take, List.length_drop]; omega
  rw [List.take_take, inf_eq_right.mpr (by omega : m ≤ m + src.length)]
  rw [List.length_append, h9, Nat.sub_self, List.take_zero, List.append_nil]

/-- A window wholly inside the region freshly written at offset 0 reads back
from `src` itself. -/
theorem listSub_setAt_inner {l src : List Nat} {a n : Nat}
    (h1 : a + n ≤ src.length) :
    listSub (setAt l 0 src) a n = listSub src a n := by
  have h4 : (List.drop a src).length = src.length - a := by simp
  simp only [setAt, listSub, List.take_zero, List.nil_append, Nat.zero_add,
    List.drop_append_eq_append_drop, List.take_append_eq_append_take, h4]
  have h5 : n - (src.length - a) = 0 := by omega
  rw [h5, List.take_zero, List.append_nil]

/-! ## Characterisation of the buffer operations -/

theorem Buffer.write_qLen (b : List Nat) (s : Buffer) :
    (Buffer.write b s).qLen = s.qLen + b.length := by
  simp only [Buffer.write]; split <;> rfl

theorem Buffer.write_readCount (b : List Nat) (s : Buffer) :
    (Buffer.write b s).readCount = s.readCount := by
  simp only [Buffer.write]; split <;> rfl

theorem Buffer.write_autoack (b : List Nat) (s : Buffer) :
    (Buffer.write b s).autoack = s.autoack := by
  simp only [Buffer.write]; split <;> rfl

theorem Buffer.write_fOff_eq (b : List Nat) {s : Buffer}
    (h1 : s.fOff = s.qOff + s.qLen) :
    (Buffer.write b s).fOff = (Buffer.write b s).qOff + (Buffer.write b s).qLen := by
  by_cases h : s.storage.length - s.fOff < b.length
  · simp only [Buffer.write, if_pos h]; omega
  · simp only [Buffer.write, if_neg h]; omega

/-- When the free tail already has room, `write` just appends at `fOff`. -/
theorem Buffer.write_easy {b : List Nat} {s : Buffer}
    (h : ¬ s.storage.length - s.fOff < b.length) :
    Buffer.write b s =
      { s with storage := setAt s.storage s.fOff b
               fOff := s.fOff + b.length
               qLen := s.qLen + b.length } := by
  simp only [Buffer.write, if_neg h]

/-- Free tail too small but total capacity enough: compact the queued bytes
to the front of the same storage, then append. -/
theorem Buffer.write_compact {b : List Nat} {s : Buffer}
    (h : s.storage.length - s.fOff < b.length)
    (hcap : ¬ s.storage.length < s.qLen + b.length) :
    Buffer.write b s =
      { s with storage := setAt (setAt s.storage 0 s.queuedBytes) s.qLen b
               qOff := 0
               fOff := s.qLen + b.length
               qLen := s.qLen + b.length } := by
  simp only [Buffer.write, if_pos h, if_neg hcap, Buffer.queuedBytes]

/-- Free tail and total capacity both too small: reallocate to the next
whole-KiB size strictly greater than `queued+incoming`, copy, append. -/
theorem Buffer.write_grow {b : List Nat} {s : Buffer}
    (h : s.storage.length - s.fOff < b.length)
    (hcap : s.storage.length < s.qLen + b.length) :
    Buffer.write b s =
      { s with storage :=
                 setAt (setAt (List.replicate (((s.qLen + b.length) / 1024 + 1) * 1024) 0)
                     0 s.queuedBytes) s.qLen b
               qOff := 0
               fOff := s.qLen + b.length
               qLen := s.qLen + b.length } := by
  simp only [Buffer.write, if_pos h, if_pos hcap, Buffer.queuedBytes]

/-- The fresh allocation size is strictly bigger than the bytes to hold. -/
theorem grow_size_gt (x : Nat) : x < (x / 1024 + 1) * 1024 := by
  have hdm := Nat.div_add_mod x 1024
  have hml : x % 1024 < 1024 := Nat.mod_lt _ (by norm_num)
  omega

theorem Buffer.queuedBytes_length {s : Buffer} (hg : s.good) :
    s.queuedBytes.length = s.qLen := by
  obtain ⟨h1, h2, _, _⟩ := hg
  exact listSub_length (by omega)

/-- Capacity of the storage after a `write`. -/
theorem Buffer.write_storage_length {b : List Nat} {s : Buffer} (hg : s.good) :
    (Buffer.write b s).storage.length =
      if s.storage.length - s.fOff < b.length then
        (if s.storage.length < s.qLen + b.length then
          ((s.qLen + b.length) / 1024 + 1) * 1024
         else s.storage.length)
      else s.storage.length := by
  have hq : s.queuedBytes.length = s.qLen := Buffer.queuedBytes_length hg
  obtain ⟨h1, h2, _, _⟩ := hg
  by_cases h : s.storage.length - s.fOff < b.length
  · by_cases hcap : s.storage.length < s.qLen + b.length
    · rw [Buffer.write_grow h hcap]
      have hgt := grow_size_gt (s.qLen + b.length)
      simp only [if_pos h, if_pos hcap]
      have hlen1 : (setAt (List.replicate (((s.qLen + b.length) / 1024 + 1) * 1024) 0)
          0 s.queuedBytes).length = ((s.qLen + b.length) / 1024 + 1) * 1024 := by
        rw [setAt_length] <;> simp only [hq, List.length_replicate] <;> omega
      rw [setAt_length (by rw [hlen1]; omega), hlen1]
    · rw [Buffer.write_compact h hcap]
      simp only [if_pos h, if_neg hcap]
      have hlen1 : (setAt s.storage 0 s.queuedBytes).length = s.storage.length := by
        rw [setAt_length]; rw [hq]; omega
      rw [setAt_length (by rw [hlen1]; omega), hlen1]
  · rw [Buffer.write_easy h]
    simp only [if_neg h]
    exact setAt_length (by omega)

/-- `write` appends the incoming bytes to the queued view's contents,
whichever of the three paths (append / compact / reallocate) was taken. -/
theorem Buffer.write_queuedBytes {b : List Nat} {s : Buffer} (hg : s.good) :
    (Buffer.write b s).queuedBytes = s.queuedBytes ++ b := by
  have hq : s.queuedBytes.length = s.qLen := Buffer.queuedBytes_length hg
  obtain ⟨h1, h2, _, _⟩ := hg
  by_cases h : s.storage.length - s.fOff < b.length
  · by_cases hcap : s.storage.length < s.qLen + b.length
    · rw [Buffer.write_grow h hcap]
      have hgt := grow_size_gt (s.qLen + b.length)
      have hlen1 : (setAt (List.replicate (((s.qLen + b.length) / 1024 + 1) * 1024) 0)
          0 s.queuedBytes).length = ((s.qLen + b.length) / 1024 + 1) * 1024 := by
        rw [setAt_length] <;> simp only [hq, List.length_replicate] <;> omega
      show listSub _ 0 (s.qLen + b.length) = _
      have hglue := @listSub_setAt_glue (setAt (List.replicate
          (((s.qLen + b.length) / 1024 + 1) * 1024) 0) 0 s.queuedBytes)
          b 0 s.qLen (by rw [hlen1]; omega)
      simp only [Nat.zero_add] at hglue
      rw [hglue]
      congr 1
      have := @listSub_setAt_inner (List.replicate
          (((s.qLen + b.length) / 1024 + 1) * 1024) 0) s.queuedBytes
          0 s.qLen (by omega)
      rw [this, ← hq, listSub_zero_len]
    · rw [Buffer.write_compact h hcap]
      have hlen1 : (setAt s.storage 0 s.queuedBytes).length = s.storage.length := by
        rw [setAt_length]; omega
      show listSub _ 0 (s.qLen + b.length) = _
      have hglue := @listSub_setAt_glue (setAt s.storage 0 s.queuedBytes)
          b 0 s.qLen (by rw [hlen1]; omega)
      simp only [Nat.zero_add] at hglue
      rw [hglue]
      congr 1
      have := @listSub_setAt_inner s.storage s.queuedBytes
          0 s.qLen (by omega)
      rw [this, ← hq, listSub_zero_len]
  · rw [Buffer.write_easy h]
    show listSub (setAt s.storage s.fOff b) s.qOff (s.qLen + b.length) = _
    have hglue := @listSub_setAt_glue s.storage b
        s.qOff s.qLen (by omega)
    rw [← h1] at hglue
    rw [hglue]
    rfl

/-- `write` preserves structural well-formedness. -/
theorem Buffer.good_write {b : List Nat} {s : Buffer} (hg : s.good) :
    (Buffer.write b s).good := by
  have hlen := Buffer.write_storage_length (b := b) hg
  obtain ⟨h1, h2, h3, h4⟩ := hg
  have hfo := Buffer.write_fOff_eq b h1
  have hql := Buffer.write_qLen b s
  have hrc := Buffer.write_readCount b s
  refine ⟨hfo, ?_, by omega, by omega⟩
  rw [hfo] at *
  by_cases h : s.storage.length - s.fOff < b.length
  · by_cases hcap : s.storage.length < s.qLen + b.length
    · have hgt := grow_size_gt (s.qLen + b.length)
      simp only [if_pos h, if_pos hcap] at hlen
      rw [hlen]
      simp only [Buffer.write, if_pos h, if_pos hcap]
      omega
    · simp only [if_pos h, if_neg hcap] at hlen
      rw [hlen]
      simp only [Buffer.write, if_pos h, if_neg hcap]
      omega
  · simp only [if_neg h] at hlen
    rw [hlen]
    simp only [Buffer.write, if_neg h]
    omega

theorem Buffer.ack_lt {n : Nat} {s : Buffer} (h : n < s.qLen) :
    Buffer.ack n s =
      { s with qOff := s.qOff + n
               qLen := s.qLen - n
               readCount := s.readCount - (n : Int) } := by
  simp only [Buffer.ack, if_pos h]

theorem Buffer.ack_ge {n : Nat} {s : Buffer} (h : s.qLen ≤ n) :
    Buffer.ack n s =
      { s with storage :=
                 if 128 * 1024 ≤ s.storage.length then List.replicate (32 * 1024) 0
                 else s.storage
               fOff := 0
               qOff := 0
               qLen := 0
               readCount := 0 } := by
  simp only [Buffer.ack, if_neg (by omega : ¬ n < s.qLen)]

/-- Field-level reading of `ack` in the still-pending branch. -/
theorem Buffer.ack_lt_proj {n : Nat} {s : Buffer} (h : n < s.qLen) :
    (Buffer.ack n s).qOff = s.qOff + n ∧
    (Buffer.ack n s).qLen = s.qLen - n ∧
    (Buffer.ack n s).readCount = s.readCount - (n : Int) ∧
    (Buffer.ack n s).getQueuedBytes =
      ((s.qLen - n : Nat) : Int) - (s.readCount - (n : Int)) := by
  rw [Buffer.ack_lt h]
  exact ⟨rfl, rfl, rfl, rfl⟩

/-- The unread window is the queued contents with the read cursor dropped. -/
theorem Buffer.unread_eq (s : Buffer) :
    s.unread = s.queuedBytes.drop s.readCount.toNat := by
  simp only [Buffer.unread, Buffer.queuedBytes, listSub_eq_drop_listSub]

theorem Buffer.unread_length {s : Buffer} (hg : s.good) :
    s.unread.length = s.qLen - s.readCount.toNat := by
  obtain ⟨h1, h2, h3, h4⟩ := hg
  exact listSub_length (by omega)

/-- For well-formed states `getQueuedBytes` is exactly the number of unread
bytes. -/
theorem Buffer.getQueuedBytes_eq_unread_length {s : Buffer} (hg : s.good) :
    s.getQueuedBytes = (s.unread.length : Int) := by
  have := Buffer.unread_length hg
  obtain ⟨h1, h2, h3, h4⟩ := hg
  simp only [Buffer.getQueuedBytes, this]
  omega

theorem Buffer.unread_write {b : List Nat} {s : Buffer} (hg : s.good) :
    (Buffer.write b s).unread = s.unread ++ b := by
  have hq : s.queuedBytes.length = s.qLen := Buffer.queuedBytes_length hg
  rw [Buffer.unread_eq, Buffer.unread_eq, Buffer.write_queuedBytes hg,
    Buffer.write_readCount]
  rw [List.drop_append_eq_append_drop]
  obtain ⟨h1, h2, h3, h4⟩ := hg
  have : s.readCount.toNat - s.queuedBytes.length = 0 := by omega
  rw [this, List.drop_zero]

/-- The two components of `read` for a well-formed state: the returned view
is the first `n` unread bytes, and (auto-ack aside) only the cursor moves. -/
theorem Buffer.read_fst {n : Nat} {s : Buffer} (hg : s.good) :
    (Buffer.read n s).1 = s.unread.take n := by
  obtain ⟨h1, h2, h3, h4⟩ := hg
  have hb : jsIdx s.qLen s.readCount = s.readCount.toNat := by
    simp only [jsIdx, if_neg (by omega : ¬ s.readCount < 0)]
    omega
  have he : jsIdx s.qLen (s.readCount + (n : Int)) =
      min (s.readCount.toNat + n) s.qLen := by
    simp only [jsIdx, if_neg (by omega : ¬ s.readCount + (n : Int) < 0)]
    omega
  have hidx : min (s.readCount.toNat + n) s.qLen - s.readCount.toNat =
      min n (s.qLen - s.readCount.toNat) := by omega
  simp only [Buffer.read, hb, he, hidx]
  have : s.unread.take n =
      listSub s.storage (s.qOff + s.readCount.toNat)
        (min n (s.qLen - s.readCount.toNat)) := by
    simp only [Buffer.unread, listSub, List.take_take]
  rw [this]
  split <;> rfl

theorem Buffer.read_ret_length {n : Nat} {s : Buffer} (hg : s.good) :
    (Buffer.read n s).1.length = min n (s.qLen - s.readCount.toNat) := by
  rw [Buffer.read_fst hg]
  have := Buffer.unread_length hg
  simp only [List.length_take, this]

theorem Buffer.read_snd_noauto {n : Nat} {s : Buffer} (hg : s.good)
    (ha : s.autoack = false) :
    (Buffer.read n s).2 =
      { s with readCount := s.readCount + ((s.unread.take n).length : Int) } := by
  have hf := Buffer.read_fst (n := n) hg
  simp only [Buffer.read, ha, Bool.false_eq_true, if_false] at hf ⊢
  rw [hf]

theorem Buffer.read_snd_auto {n : Nat} {s : Buffer} (hg : s.good)
    (ha : s.autoack = true) :
    (Buffer.read n s).2 =
      Buffer.ack (s.unread.take n).length
        { s with readCount := s.readCount + ((s.unread.take n).length : Int) } := by
  have hf := Buffer.read_fst (n := n) hg
  simp only [Buffer.read, ha, if_true] at hf ⊢
  rw [hf]

/-- The state of an auto-ack read is the state of a plain read followed by
an `ack` of the bytes just returned (with the mode flag carried along). -/
theorem Buffer.read_auto_vs_manual {n : Nat} {s : Buffer} (hg : s.good)
    (ha : s.autoack = false) :
    (Buffer.read n { s with autoack := true }).1 = (Buffer.read n s).1 ∧
    (Buffer.read n { s with autoack := true }).2 =
      { Buffer.ack ((Buffer.read n s).1.length) (Buffer.read n s).2
          with autoack := true } := by
  have hg' : ({ s with autoack := true } : Buffer).good := hg
  have h1 := Buffer.read_fst (n := n) hg
  have h2 := Buffer.read_fst (n := n) hg'
  have h3 := Buffer.read_snd_auto (n := n) hg' rfl
  have h4 := Buffer.read_snd_noauto (n := n) hg ha
  have hu : ({ s with autoack := true } : Buffer).unread = s.unread := rfl
  refine ⟨by rw [h1, h2]; rfl, ?_⟩
  rw [h3, h1, h4, hu]
  simp only [Buffer.ack]
  split <;> rfl

theorem Buffer.good_init (a : Bool) : (Buffer.init a).good :=
  ⟨rfl, Nat.zero_le _, le_refl 0, le_refl 0⟩

/-- `ack` keeps a state well-formed as long as the ack is covered by prior
reads (or wipes the whole queue). -/
theorem Buffer.good_ack {n : Nat} {s : Buffer} (hg : s.good)
    (h : (n : Int) ≤ s.readCount ∨ s.qLen ≤ n) : (Buffer.ack n s).good := by
  obtain ⟨h1, h2, h3, h4⟩ := hg
  by_cases hn : n < s.qLen
  · rw [Buffer.ack_lt hn]
    unfold Buffer.good
    dsimp only
    refine ⟨by omega, by omega, by omega, by omega⟩
  · rw [Buffer.ack_ge (by omega)]
    unfold Buffer.good
    dsimp only
    refine ⟨by omega, ?_, by omega, by omega⟩
    split <;> exact Nat.zero_le _

theorem Buffer.good_addCursor {s : Buffer} {k : Nat} (hg : s.good)
    (hk : s.readCount + (k : Int) ≤ (s.qLen : Int)) :
    ({ s with readCount := s.readCount + (k : Int) } : Buffer).good := by
  obtain ⟨h1, h2, h3, h4⟩ := hg
  refine ⟨h1, h2, ?_, ?_⟩
  · show (0 : Int) ≤ s.readCount + (k : Int)
    omega
  · show s.readCount + (k : Int) ≤ (s.qLen : Int)
    exact hk

/-- Moving the read cursor forward by `k` drops `k` bytes from the unread
window. -/
theorem Buffer.unread_addCursor {s : Buffer} {k : Nat} (h3 : 0 ≤ s.readCount) :
    ({ s with readCount := s.readCount + (k : Int) } : Buffer).unread =
      s.unread.drop k := by
  show listSub s.storage (s.qOff + (s.readCount + (k : Int)).toNat)
      (s.qLen - (s.readCount + (k : Int)).toNat) = _
  have e1 : (s.readCount + (k : Int)).toNat = s.readCount.toNat + k := by omega
  have e2 : s.qOff + (s.readCount.toNat + k) = s.qOff + s.readCount.toNat + k := by
    omega
  have e3 : s.qLen - (s.readCount.toNat + k) = (s.qLen - s.readCount.toNat) - k := by
    omega
  rw [e1, e2, e3, listSub_eq_drop_listSub]
  rfl

/-- An `ack` entirely covered by previously read bytes leaves the unread
window untouched. -/
theorem Buffer.unread_ack_cov {s : Buffer} {n : Nat} (hg : s.good)
    (hcov : (n : Int) ≤ s.readCount) :
    (Buffer.ack n s).unread = s.unread := by
  obtain ⟨h1, h2, h3, h4⟩ := hg
  by_cases hn : n < s.qLen
  · rw [Buffer.ack_lt hn]
    show listSub s.storage (s.qOff + n + (s.readCount - (n : Int)).toNat)
        (s.qLen - n - (s.readCount - (n : Int)).toNat) = _
    have e1 : (s.readCount - (n : Int)).toNat = s.readCount.toNat - n := by omega
    have e2 : s.qOff + n + (s.readCount.toNat - n) = s.qOff + s.readCount.toNat := by
      omega
    have e3 : s.qLen - n - (s.readCount.toNat - n) = s.qLen - s.readCount.toNat := by
      omega
    rw [e1, e2, e3]
    rfl
  · rw [Buffer.ack_ge (by omega)]
    have hz : s.qLen - s.readCount.toNat = 0 := by omega
    show listSub _ 0 0 = _
    rw [Buffer.unread_eq]
    have hzz : s.queuedBytes.length ≤ s.readCount.toNat := by
      rw [Buffer.queuedBytes_length ⟨h1, h2, h3, h4⟩]; omega
    rw [List.drop_eq_nil_of_le hzz]
    rfl

theorem Buffer.good_read {n : Nat} {s : Buffer} (hg : s.good) :
    (Buffer.read n s).2.good := by
  have hul := Buffer.unread_length hg
  have hL : (s.unread.take n).length ≤ s.qLen - s.readCount.toNat := by
    simp only [List.length_take, hul]; omega
  have hcur : s.readCount + (((s.unread.take n).length : Nat) : Int) ≤ (s.qLen : Int) := by
    obtain ⟨h1, h2, h3, h4⟩ := hg
    omega
  cases ha : s.autoack
  · rw [Buffer.read_snd_noauto hg ha]
    exact Buffer.good_addCursor hg hcur
  · rw [Buffer.read_snd_auto hg ha]
    refine Buffer.good_ack (Buffer.good_addCursor hg hcur) (Or.inl ?_)
    show ((s.unread.take n).length : Int) ≤ s.readCount + ((s.unread.take n).length : Int)
    have h3 := hg.2.2.1
    omega

theorem List.drop_min_length (l : List Nat) (n : Nat) :
    l.drop (min n l.length) = l.drop n := by
  by_cases h : n ≤ l.length
  · rw [min_eq_left h]
  · rw [min_eq_right (by omega), List.drop_eq_nil_of_le (le_refl _),
      List.drop_eq_nil_of_le (by omega)]

/-- After a `read n` the unread window has lost its first `n` bytes,
in auto-ack mode or not. -/
theorem Buffer.unread_read_snd {n : Nat} {s : Buffer} (hg : s.good) :
    (Buffer.read n s).2.unread = s.unread.drop n := by
  have hul := Buffer.unread_length hg
  have hdropL : s.unread.drop (s.unread.take n).length = s.unread.drop n := by
    have hL : (s.unread.take n).length = min n s.unread.length := by
      simp only [List.length_take]
    rw [hL, List.drop_min_length]
  have hcur : s.readCount + (((s.unread.take n).length : Nat) : Int) ≤ (s.qLen : Int) := by
    have hL : (s.unread.take n).length ≤ s.qLen - s.readCount.toNat := by
      simp only [List.length_take, hul]; omega
    obtain ⟨h1, h2, h3, h4⟩ := hg
    omega
  cases ha : s.autoack
  · rw [Buffer.read_snd_noauto hg ha, Buffer.unread_addCursor hg.2.2.1, hdropL]
  · rw [Buffer.read_snd_auto hg ha]
    rw [Buffer.unread_ack_cov (Buffer.good_addCursor hg hcur) ?hcov]
    · rw [Buffer.unread_addCursor hg.2.2.1, hdropL]
    case hcov =>
      show ((s.unread.take n).length : Int) ≤ s.readCount + ((s.unread.take n).length : Int)
      have h3 := hg.2.2.1
      omega

/-! ## Sequences of buffer operations -/
/-- Two well-formed buffer states with the same unread byte content are
indistinguishable to the consumer: every well-formed operation sequence
returns the same bytes from both. -/
theorem runOps_congr_unread :
    ∀ (ops : List BufOp) (s₁ s₂ : Buffer) (c : Nat),
      s₁.good → s₂.good → s₁.autoack = false → s₂.autoack = false →
      s₁.unread = s₂.unread →
      (c : Int) ≤ s₁.readCount → (c : Int) ≤ s₂.readCount →
      wfOps s₁ c ops →
      runOps s₁ ops = runOps s₂ ops ∧ wfOps s₂ c ops := by
  intro ops
  induction ops with
  | nil => intro s₁ s₂ c _ _ _ _ _ _ _ _; exact ⟨rfl, trivial⟩
  | cons op ops ih =>
    intro s₁ s₂ c hg₁ hg₂ ha₁ ha₂ hu hc₁ hc₂ hwf
    cases op with
    | write b =>
      simp only [runOps, wfOps] at hwf ⊢
      exact ih (Buffer.write b s₁) (Buffer.write b s₂) c
        (Buffer.good_write hg₁) (Buffer.good_write hg₂)
        ((Buffer.write_autoack b s₁).trans ha₁)
        ((Buffer.write_autoack b s₂).trans ha₂)
        (by rw [Buffer.unread_write hg₁, Buffer.unread_write hg₂, hu])
        (by rw [Buffer.write_readCount]; exact hc₁)
        (by rw [Buffer.write_readCount]; exact hc₂) hwf
    | read n =>
      simp only [runOps, wfOps] at hwf ⊢
      have hr₁ := Buffer.read_fst (n := n) hg₁
      have hr₂ := Buffer.read_fst (n := n) hg₂
      have hret : (Buffer.read n s₁).1 = (Buffer.read n s₂).1 := by
        rw [hr₁, hr₂, hu]
      have hs₁ := Buffer.read_snd_noauto (n := n) hg₁ ha₁
      have hs₂ := Buffer.read_snd_noauto (n := n) hg₂ ha₂
      have hrc₁ : (Buffer.read n s₁).2.readCount =
          s₁.readCount + ((Buffer.read n s₁).1.length : Int) := by
        rw [hs₁, hr₁]
      have hrc₂ : (Buffer.read n s₂).2.readCount =
          s₂.readCount + ((Buffer.read n s₂).1.length : Int) := by
        rw [hs₂, hr₂]
      have haa₁ : (Buffer.read n s₁).2.autoack = false := by rw [hs₁]; exact ha₁
      have haa₂ : (Buffer.read n s₂).2.autoack = false := by rw [hs₂]; exact ha₂
      have hlen : (Buffer.read n s₁).1.length = (Buffer.read n s₂).1.length := by
        rw [hret]
      have := ih (Buffer.read n s₁).2 (Buffer.read n s₂).2
        (c + (Buffer.read n s₁).1.length)
        (Buffer.good_read hg₁) (Buffer.good_read hg₂) haa₁ haa₂
        (by rw [Buffer.unread_read_snd hg₁, Buffer.unread_read_snd hg₂, hu])
        (by rw [hrc₁]; push_cast; omega)
        (by rw [hrc₂, ← hret]; push_cast; omega) hwf
      rw [hlen] at this
      exact ⟨by rw [hret, this.1], this.2⟩
    | ack n =>
      simp only [runOps, wfOps] at hwf ⊢
      obtain ⟨hn, hwf⟩ := hwf
      have hcov₁ : (n : Int) ≤ s₁.readCount := by omega
      have hcov₂ : (n : Int) ≤ s₂.readCount := by omega
      have hrc₁ : (Buffer.ack n s₁).readCount = s₁.readCount - (n : Int) ∨
          ((Buffer.ack n s₁).readCount = 0 ∧ s₁.qLen ≤ n) := by
        by_cases hlt : n < s₁.qLen
        · left; rw [Buffer.ack_lt hlt]
        · right; rw [Buffer.ack_ge (by omega)]; exact ⟨rfl, by omega⟩
      have hrc₂ : (Buffer.ack n s₂).readCount = s₂.readCount - (n : Int) ∨
          ((Buffer.ack n s₂).readCount = 0 ∧ s₂.qLen ≤ n) := by
        by_cases hlt : n < s₂.qLen
        · left; rw [Buffer.ack_lt hlt]
        · right; rw [Buffer.ack_ge (by omega)]; exact ⟨rfl, by omega⟩
      have haa₁ : (Buffer.ack n s₁).autoack = false := by
        unfold Buffer.ack; split <;> exact ha₁
      have haa₂ : (Buffer.ack n s₂).autoack = false := by
        unfold Buffer.ack; split <;> exact ha₂
      have hq₁ : s₁.readCount ≤ (s₁.qLen : Int) := hg₁.2.2.2
      have hq₂ : s₂.readCount ≤ (s₂.qLen : Int) := hg₂.2.2.2
      refine ⟨(ih (Buffer.ack n s₁) (Buffer.ack n s₂) (c - n)
        (Buffer.good_ack hg₁ (Or.inl hcov₁)) (Buffer.good_ack hg₂ (Or.inl hcov₂))
        haa₁ haa₂
        (by rw [Buffer.unread_ack_cov hg₁ hcov₁, Buffer.unread_ack_cov hg₂ hcov₂, hu])
        ?_ ?_ hwf).1, hn, (ih (Buffer.ack n s₁) (Buffer.ack n s₂) (c - n)
        (Buffer.good_ack hg₁ (Or.inl hcov₁)) (Buffer.good_ack hg₂ (Or.inl hcov₂))
        haa₁ haa₂
        (by rw [Buffer.unread_ack_cov hg₁ hcov₁, Buffer.unread_ack_cov hg₂ hcov₂, hu])
        ?_ ?_ hwf).2⟩
      · rcases hrc₁ with h | ⟨h, hq⟩ <;> rw [h] <;> omega
      · rcases hrc₂ with h | ⟨h, hq⟩ <;> rw [h] <;> omega
      · rcases hrc₁ with h | ⟨h, hq⟩ <;> rw [h] <;> omega
      · rcases hrc₂ with h | ⟨h, hq⟩ <;> rw [h] <;> omega

/-! ## `nassh.Stream.GoogleRelay` (src/nassh/js/nassh_stream_google_relay.js)

The base class shared by the XHR and WebSocket transports.  Network and
timer effects are modelled as explicit outputs: each transition returns,
besides the successor state, a record saying which continuations the code
invoked (`resumeRead_`, `sendWrite_`, `onBackoffExpired_`, timers, shown
overlays, sent frames, delivered payloads, fired callbacks). -/
/-! ## Helper characterisations of the transport transitions -/

theorem Relay.requestSuccess_fst (r : Bool) (s : Relay) :
    (Relay.requestSuccess r s).1 =
      { s with backoffMS := 0, backoffTimeout := false } := by
  cases hb : s.backoffTimeout <;> cases r <;> simp [Relay.requestSuccess, hb]

theorem Relay.requestSuccess_snd (r : Bool) (s : Relay) :
    (Relay.requestSuccess r s).2 =
      if s.backoffTimeout then ⟨true, true, true, true⟩
      else if r then ⟨false, false, true, false⟩
      else ⟨false, false, false, true⟩ := by
  cases hb : s.backoffTimeout <;> cases r <;> simp [Relay.requestSuccess, hb]

theorem WS.recordAckTime_fst (dt : Nat) (s : WS) :
    (WS.recordAckTime dt s).1 =
      { s with ackTimes := s.ackTimes.set s.ackTimesIndex dt
               ackTimesIndex := (s.ackTimesIndex + 1) %
                 (s.ackTimes.set s.ackTimesIndex dt).length } := by
  simp only [WS.recordAckTime]
  split <;> rfl

/-- The non-fatal path of `onSocketData_` (header present, 24-bit ack):
latency bookkeeping aside, the buffer is acked by the wrap-aware delta,
`writeCount_` advances by it, the payload (bytes after the header) is
delivered when non-empty, and a write-side request success is reported. -/
theorem WS.onSocketData_main {now : Nat} {frame : List Nat} {s : WS}
    (h4 : ¬ frame.length < 4) (hack : ¬ 16777215 < beUint32 frame) :
    (WS.onSocketData now frame s).2.delta = wrapDelta (beUint32 frame) s.writeCount ∧
    (WS.onSocketData now frame s).1.writeCount =
      s.writeCount + wrapDelta (beUint32 frame) s.writeCount ∧
    (WS.onSocketData now frame s).1.writeBuffer =
      Buffer.ack (wrapDelta (beUint32 frame) s.writeCount) s.writeBuffer ∧
    (WS.onSocketData now frame s).2.delivered =
      (if (frame.drop 4).length ≠ 0 then some (frame.drop 4) else none) ∧
    (WS.onSocketData now frame s).1.readCount =
      s.readCount + (frame.drop 4).length ∧
    (WS.onSocketData now frame s).2.fatal = false ∧
    (WS.onSocketData now frame s).1.sessionID = s.sessionID ∧
    (WS.onSocketData now frame s).2.threw = false := by
  simp only [WS.onSocketData]
  rw [if_neg h4, if_neg hack]
  by_cases hlat : s.ackTime ≠ 0 ∧ beUint32 frame = s.expectedAck <;>
    by_cases hp : frame.length - 4 = 0 <;>
      simp [hlat, hp, List.length_drop, Relay.requestSuccess_fst,
        WS.recordAckTime_fst]

/-! ## Claims -/

/-- C3: from the healthy state (`backoffMS_ = 0`, no timer pending,
session established) a request error produces a 1 ms backoff and arms the
timer; after the timer fires, a further error from a nonzero backoff `b`
produces `b*2 + 13`, remapped to `10000 - (b*2+13) % 9000` above 10000 (so
the second consecutive error waits 15 ms); a request success at any point
resets the backoff to 0 and, when a timer is pending, cancels it and runs
the backoff-expiry action immediately. -/
theorem C3_backoff_progression (s t u : Relay) (r r' r'' : Bool)
    (hS : s.sessionID = true) (hT : s.backoffTimeout = false)
    (h0 : s.backoffMS = 0)
    (htS : t.sessionID = true) (htT : t.backoffTimeout = false)
    (htn : t.backoffMS ≠ 0) :
    (Relay.requestError r s).1.backoffMS = 1 ∧
    (Relay.requestError r s).1.backoffTimeout = true ∧
    (Relay.requestError r s).2.scheduledTimerMS = some 1 ∧
    (Relay.requestError r' t).1.backoffMS =
      (if 10000 < t.backoffMS * 2 + 13 then 10000 - (t.backoffMS * 2 + 13) % 9000
       else t.backoffMS * 2 + 13) ∧
    (Relay.requestError r' t).1.backoffTimeout = true ∧
    (Relay.requestError r'
        (Relay.onBackoffExpired (Relay.requestError r s).1)).1.backoffMS = 15 ∧
    (Relay.requestSuccess r'' u).1.backoffMS = 0 ∧
    (u.backoffTimeout = true →
      (Relay.requestSuccess r'' u).2.cancelledTimer = true ∧
      (Relay.requestSuccess r'' u).2.ranExpiry = true ∧
      (Relay.requestSuccess r'' u).2.resumedRead = true ∧
      (Relay.requestSuccess r'' u).2.sentWrite = true ∧
      (Relay.requestSuccess r'' u).1.backoffTimeout = false) := by
  have hcond : ¬ (¬ s.sessionID = true ∨ s.backoffTimeout = true) := by
    rw [hS, hT]; simp
  have hcondt : ¬ (¬ t.sessionID = true ∨ t.backoffTimeout = true) := by
    rw [htS, htT]; simp
  have he1 : (Relay.requestError r s).1 =
      { s with backoffMS := 1, backoffTimeout := true } := by
    unfold Relay.requestError
    rw [if_neg (by simpa using hcond), if_pos h0]
  have he1o : (Relay.requestError r s).2.scheduledTimerMS = some 1 := by
    unfold Relay.requestError
    rw [if_neg (by simpa using hcond), if_pos h0]
  have he2 : (Relay.requestError r' t).1 =
      { t with backoffMS := ite (10000 < t.backoffMS * 2 + 13) (10000 - (t.backoffMS * 2 + 13) % 9000) (t.backoffMS * 2 + 13), backoffTimeout := true } := by
    unfold Relay.requestError
    rw [if_neg (by simpa using hcondt), if_neg htn]
  have hexp : Relay.onBackoffExpired (Relay.requestError r s).1 =
      { s with backoffMS := 1, backoffTimeout := false } := by
    rw [he1]; rfl
  have he3 : (Relay.requestError r'
      (Relay.onBackoffExpired (Relay.requestError r s).1)).1.backoffMS = 15 := by
    rw [hexp]
    unfold Relay.requestError
    rw [if_neg (by simp [hS])]
    simp
  refine ⟨by rw [he1], by rw [he1], he1o, by rw [he2], by rw [he2], he3, ?_, ?_⟩
  · rw [Relay.requestSuccess_fst]
  · intro hu
    rw [Relay.requestSuccess_snd, if_pos hu, Relay.requestSuccess_fst]
    exact ⟨rfl, rfl, rfl, rfl, rfl⟩

/-- Witness for C3 at concrete states. -/
theorem C3_backoff_progression_witness :
    (Relay.requestError false
      { sessionID := true, backoffMS := 0, backoffTimeout := false,
        writeBuffer := Buffer.init false, writeCount := 0, readCount := 0,
        streamOpen := true }).1.backoffMS = 1 ∧
    (Relay.requestSuccess false
      { sessionID := true, backoffMS := 7, backoffTimeout := true,
        writeBuffer := Buffer.init false, writeCount := 0, readCount := 0,
        streamOpen := true }).2.ranExpiry = true := by
  have h := C3_backoff_progression
    { sessionID := true, backoffMS := 0, backoffTimeout := false,
      writeBuffer := Buffer.init false, writeCount := 0, readCount := 0,
      streamOpen := true }
    { sessionID := true, backoffMS := 5, backoffTimeout := false,
      writeBuffer := Buffer.init false, writeCount := 0, readCount := 0,
      streamOpen := true }
    { sessionID := true, backoffMS := 7, backoffTimeout := true,
      writeBuffer := Buffer.init false, writeCount := 0, readCount := 0,
      streamOpen := true }
    false false false rfl rfl rfl rfl rfl (by norm_num)
  exact ⟨h.1, (h.2.2.2.2.2.2.2 rfl).2.1⟩

theorem Buffer.ack_zero_gqb {b : Buffer} (hb : b.good) :
    (Buffer.ack 0 b).getQueuedBytes = b.getQueuedBytes := by
  obtain ⟨h1, h2, h3, h4⟩ := hb
  by_cases hq : 0 < b.qLen
  · rw [Buffer.ack_lt hq]
    show ((b.qLen - 0 : Nat) : Int) - (b.readCount - (0 : Int)) = _
    simp [Buffer.getQueuedBytes]
  · rw [Buffer.ack_ge (by omega)]
    show ((0 : Nat) : Int) - 0 = _
    simp only [Buffer.getQueuedBytes]
    omega

/-- C4: an inbound frame whose 24-bit ack header is in range acks the
outbound buffer by the wrap-aware, never-negative
`delta = (ack − writeCount) mod 2^24` and advances `writeCount_` by it;
`writeCount = 16777200` with ack `20` gives `delta = 36`; an ack equal to
`writeCount mod 2^24` gives `delta = 0` and releases nothing. -/
theorem C4_socket_ack_delta (s : WS) (frame : List Nat) (now : Nat)
    (h4 : ¬ frame.length < 4) (hack : beUint32 frame ≤ 16777215)
    (hb : s.writeBuffer.good) :
    ((WS.onSocketData now frame s).2.delta : Int) =
      ((beUint32 frame : Int) - (s.writeCount : Int)) % 16777216 ∧
    (0 : Int) ≤ ((beUint32 frame : Int) - (s.writeCount : Int)) % 16777216 ∧
    wrapDelta 20 16777200 = 36 ∧
    (WS.onSocketData now frame s).1.writeBuffer =
      Buffer.ack ((WS.onSocketData now frame s).2.delta) s.writeBuffer ∧
    (WS.onSocketData now frame s).1.writeCount =
      s.writeCount + (WS.onSocketData now frame s).2.delta ∧
    (beUint32 frame = s.writeCount % 16777216 →
      (WS.onSocketData now frame s).2.delta = 0 ∧
      (WS.onSocketData now frame s).1.writeBuffer.getQueuedBytes =
        s.writeBuffer.getQueuedBytes) := by
  obtain ⟨hd, hwc, hwb, _, _, _, _⟩ :=
    @WS.onSocketData_main now frame s h4 (by omega)
  have hwrap : (wrapDelta (beUint32 frame) s.writeCount : Int) =
      ((beUint32 frame : Int) - (s.writeCount : Int)) % 16777216 := by
    unfold wrapDelta
    push_cast
    omega
  refine ⟨by rw [hd, hwrap], Int.emod_nonneg _ (by norm_num), by decide,
    by rw [hwb, hd], by rw [hwc, hd], ?_⟩
  intro heq
  have hz : wrapDelta (beUint32 frame) s.writeCount = 0 := by
    unfold wrapDelta
    rw [heq]
    push_cast
    omega
  refine ⟨by rw [hd, hz], ?_⟩
  rw [hwb, hz]
  exact Buffer.ack_zero_gqb hb

/-- Witness for C4 on a concrete all-zero header frame. -/
theorem C4_socket_ack_delta_witness :
    ((WS.onSocketData 0 [0, 0, 0, 0]
      { sessionID := true, backoffMS := 0, backoffTimeout := false,
        writeBuffer := Buffer.init false, writeCount := 0, readCount := 0,
        streamOpen := true, socketOpen := true, ackTime := 0, expectedAck := 0,
        ackTimes := [0, 0, 0, 0, 0, 0, 0, 0, 0, 0], ackTimesIndex := 0,
        reportAckLatency := false }).2.delta : Int) =
      ((beUint32 [0, 0, 0, 0] : Int) - ((0 : Nat) : Int)) % 16777216 ∧
    wrapDelta 20 16777200 = 36 :=
  have h := C4_socket_ack_delta
    { sessionID := true, backoffMS := 0, backoffTimeout := false,
      writeBuffer := Buffer.init false, writeCount := 0, readCount := 0,
      streamOpen := true, socketOpen := true, ackTime := 0, expectedAck := 0,
      ackTimes := [0, 0, 0, 0, 0, 0, 0, 0, 0, 0], ackTimesIndex := 0,
      reportAckLatency := false }
    [0, 0, 0, 0] 0 (by norm_num) (by norm_num [beUint32]) (Buffer.good_init false)
  ⟨h.1, h.2.2.1⟩

/-- C8: an inbound frame whose ack header exceeds the 24-bit range is a
fatal protocol error: the stream closes and the session is invalidated, no
backoff is touched, nothing is delivered, the buffer is untouched. -/
theorem C8_protocol_violation (s : WS) (frame : List Nat) (now : Nat)
    (h4 : ¬ frame.length < 4) (hack : 16777215 < beUint32 frame) :
    (WS.onSocketData now frame s).1.streamOpen = false ∧
    (WS.onSocketData now frame s).1.sessionID = false ∧
    (WS.onSocketData now frame s).2.fatal = true ∧
    (WS.onSocketData now frame s).2.delivered = none ∧
    (WS.onSocketData now frame s).2.success = none ∧
    (WS.onSocketData now frame s).1.backoffTimeout = s.backoffTimeout ∧
    (WS.onSocketData now frame s).1.backoffMS = s.backoffMS ∧
    (WS.onSocketData now frame s).1.writeBuffer = s.writeBuffer ∧
    (WS.onSocketData now frame s).1.readCount = s.readCount ∧
    (WS.onSocketData now frame s).1.writeCount = s.writeCount := by
  simp only [WS.onSocketData]
  rw [if_neg h4, if_pos hack]
  exact ⟨rfl, rfl, rfl, rfl, rfl, rfl, rfl, rfl, rfl, rfl⟩

/-- Witness for C8 on a concrete out-of-range header. -/
theorem C8_protocol_violation_witness :
    (WS.onSocketData 0 [255, 255, 255, 255]
      { sessionID := true, backoffMS := 0, backoffTimeout := false,
        writeBuffer := Buffer.init false, writeCount := 0, readCount := 0,
        streamOpen := true, socketOpen := true, ackTime := 0, expectedAck := 0,
        ackTimes := [0, 0, 0, 0, 0, 0, 0, 0, 0, 0], ackTimesIndex := 0,
        reportAckLatency := false }).2.fatal = true :=
  (C8_protocol_violation
    { sessionID := true, backoffMS := 0, backoffTimeout := false,
      writeBuffer := Buffer.init false, writeCount := 0, readCount := 0,
      streamOpen := true, socketOpen := true, ackTime := 0, expectedAck := 0,
      ackTimes := [0, 0, 0, 0, 0, 0, 0, 0, 0, 0], ackTimesIndex := 0,
      reportAckLatency := false }
    [255, 255, 255, 255] 0 (by norm_num) (by norm_num [beUint32])).2.2.1

/-- C6: acking at least the queued length resets the buffer without error —
queue empty, cursor zero, nothing left to read — and a storage of at least
4× the 32 KiB base capacity shrinks back to the base capacity. -/
theorem C6_overack_resets (s : Buffer) (n : Nat) (h : s.qLen ≤ n) :
    (Buffer.ack n s).qLen = 0 ∧
    (Buffer.ack n s).readCount = 0 ∧
    (Buffer.ack n s).getQueuedBytes = 0 ∧
    (Buffer.ack n s).unread = [] ∧
    (4 * (32 * 1024) ≤ s.storage.length →
      (Buffer.ack n s).storage.length = 32 * 1024) := by
  rw [Buffer.ack_ge h]
  refine ⟨rfl, rfl, ?_, rfl, ?_⟩
  · show ((0 : Nat) : Int) - 0 = 0
    norm_num
  · intro hcap
    show (if 128 * 1024 ≤ s.storage.length then List.replicate (32 * 1024) 0
        else s.storage).length = 32 * 1024
    rw [if_pos (by omega)]
    exact List.length_replicate ..

/-- Witness for C6 on a fresh buffer. -/
theorem C6_overack_resets_witness :
    (Buffer.ack 0 (Buffer.init false)).qLen = 0 ∧
    (Buffer.ack 0 (Buffer.init false)).readCount = 0 :=
  have h := C6_overack_resets (Buffer.init false) 0 (Nat.le_refl 0)
  ⟨h.1, h.2.1⟩
/-- Write/ack bookkeeping: the queued length moves by writes minus acks. -/
theorem applyOps_qLen :
    ∀ (ops : List BufOp) (s : Buffer), acksLe s ops →
      (applyOps s ops).qLen + sumAcks ops = s.qLen + sumWrites ops := by
  intro ops
  induction ops with
  | nil => intro s _; simp [applyOps, sumAcks, sumWrites]
  | cons op ops ih =>
    intro s h
    cases op with
    | write b =>
      simp only [acksLe] at h
      simp only [applyOps, sumWrites, sumAcks]
      have := ih _ h
      rw [Buffer.write_qLen] at this
      omega
    | read n => exact absurd h (by simp [acksLe])
    | ack n =>
      obtain ⟨hn, h⟩ := h
      simp only [applyOps, sumWrites, sumAcks]
      have := ih _ h
      have hql : (Buffer.ack n s).qLen = s.qLen - n := by
        by_cases hlt : n < s.qLen
        · rw [Buffer.ack_lt hlt]
        · rw [Buffer.ack_ge (by omega)]
          show (0 : Nat) = s.qLen - n
          omega
      rw [hql] at this
      omega

/-- C1 (counterexample to the claim as stated): from the freshly created —
hence reachable and invariant-satisfying — buffer, writing two bytes and
then acking one (an ack with `n < len(queued)`, of data that was never
read) drives `readCount_` to `-1`: the claimed clamping at 0 does not
exist, and `0 ≤ readCursor` is violated. -/
theorem C1_counterexample :
    (Buffer.init false).good ∧
    1 < (Buffer.write [0, 0] (Buffer.init false)).qLen ∧
    (Buffer.ack 1 (Buffer.write [0, 0] (Buffer.init false))).readCount = -1 := by
  have hq : (Buffer.write [0, 0] (Buffer.init false)).qLen = 2 := by
    rw [Buffer.write_qLen]
    show 0 + 2 = 2
    norm_num
  refine ⟨Buffer.good_init false, by omega, ?_⟩
  rw [Buffer.ack_lt (by omega)]
  show (Buffer.write [0, 0] (Buffer.init false)).readCount - 1 = -1
  rw [Buffer.write_readCount]
  show (0 : Int) - 1 = -1
  norm_num

/-- C1 (amended): in every well-formed state the invariant
`0 ≤ readCursor ≤ len(queued) ≤ capacity` holds, and it is preserved by
`write`, by `read`, and by any `ack` that is covered by prior reads or
wipes the queue; an `ack n` with `n < len(queued)` shifts the queue start
forward by `n` and decreases `readCursor` by exactly `n` — with no
clamping, so acking more than has been read drives `readCursor` negative
(see the counterexample). -/
theorem C1_amended (s : Buffer) (b : List Nat) (k m n : Nat) (hg : s.good)
    (hm : (m : Int) ≤ s.readCount ∨ s.qLen ≤ m) (hn : n < s.qLen) :
    (0 ≤ s.readCount ∧ s.readCount ≤ (s.qLen : Int) ∧
      s.qLen ≤ s.storage.length) ∧
    (Buffer.write b s).good ∧
    (Buffer.read k s).2.good ∧
    (Buffer.ack m s).good ∧
    (Buffer.ack n s).qOff = s.qOff + n ∧
    (Buffer.ack n s).qLen = s.qLen - n ∧
    (Buffer.ack n s).readCount = s.readCount - (n : Int) := by
  obtain ⟨h1, h2, h3, h4⟩ := hg
  refine ⟨⟨h3, h4, by omega⟩, Buffer.good_write ⟨h1, h2, h3, h4⟩,
    Buffer.good_read ⟨h1, h2, h3, h4⟩, Buffer.good_ack ⟨h1, h2, h3, h4⟩ hm,
    ?_, ?_, ?_⟩ <;> rw [Buffer.ack_lt hn]

/-- Witness for the amended C1 at a concrete two-byte buffer. -/
theorem C1_amended_witness :
    (Buffer.write [7] (Buffer.write [5, 6] (Buffer.init false))).good ∧
    (Buffer.ack 1 (Buffer.write [5, 6] (Buffer.init false))).readCount =
      (Buffer.write [5, 6] (Buffer.init false)).readCount - 1 :=
  have h := C1_amended (Buffer.write [5, 6] (Buffer.init false)) [7] 0 0 1
    (Buffer.good_write (Buffer.good_init false))
    (Or.inl (by rw [Buffer.write_readCount]; exact le_refl 0))
    (by rw [Buffer.write_qLen]; show 1 < 0 + 2; norm_num)
  ⟨h.2.1, h.2.2.2.2.2.2⟩

/-- C2 (counterexample to the claim as stated): writing two bytes and then
acking one — an ack not exceeding the bytes then queued, with no reads —
leaves `queuedByteCount() = 2`, not `2 - 1`: acked-but-unread bytes leave
the count of *unread* bytes unchanged. -/
theorem C2_counterexample :
    acksLe (Buffer.init false) [BufOp.write [0, 0], BufOp.ack 1] ∧
    sumWrites [BufOp.write [0, 0], BufOp.ack 1] = 2 ∧
    sumAcks [BufOp.write [0, 0], BufOp.ack 1] = 1 ∧
    (applyOps (Buffer.init false)
      [BufOp.write [0, 0], BufOp.ack 1]).getQueuedBytes = 2 ∧
    (2 : Int) ≠ 2 - 1 := by
  have hq : (Buffer.write [0, 0] (Buffer.init false)).qLen = 2 := by
    rw [Buffer.write_qLen]
    show 0 + 2 = 2
    norm_num
  have hrc0 : (Buffer.init false).readCount = 0 := rfl
  refine ⟨?_, rfl, rfl, ?_, by norm_num⟩
  · simp only [acksLe]
    refine ⟨by omega, trivial⟩
  · simp only [applyOps]
    rw [(Buffer.ack_lt_proj (by omega)).2.2.2, hq, Buffer.write_readCount, hrc0]
    norm_num

/-- C2 (amended): for every sequence of `write` and `ack` calls (no reads,
each ack at most the bytes then queued), it is `len(queued)` — the bytes
retained by the buffer — that equals the sum of written lengths minus the
sum of acked lengths, and that difference is never negative;
`queuedByteCount()` counts only unread bytes (`len(queued) − readCursor`)
and coincides with it only when every acked byte was previously read. -/
theorem C2_amended (ops : List BufOp)
    (h : acksLe (Buffer.init false) ops) :
    ((applyOps (Buffer.init false) ops).qLen : Int) =
      (sumWrites ops : Int) - (sumAcks ops : Int) ∧
    sumAcks ops ≤ sumWrites ops := by
  have hrun := applyOps_qLen ops (Buffer.init false) h
  have h0 : (Buffer.init false).qLen = 0 := rfl
  rw [h0] at hrun
  constructor
  · push_cast
    omega
  · omega

/-- Witness for the amended C2 on a concrete write/ack sequence. -/
theorem C2_amended_witness :
    ((applyOps (Buffer.init false) [BufOp.write [3], BufOp.ack 1]).qLen : Int) =
      (sumWrites [BufOp.write [3], BufOp.ack 1] : Int) -
      (sumAcks [BufOp.write [3], BufOp.ack 1] : Int) :=
  (C2_amended [BufOp.write [3], BufOp.ack 1]
    (by
      simp only [acksLe]
      rw [Buffer.write_qLen]
      refine ⟨?_, trivial⟩
      show 1 ≤ 0 + 1
      norm_num)).1

/-- C5 (counterexample to the claim as stated): a fresh buffer has 32768
free bytes, so writing 33792 bytes exceeds the free space; `33792` is
itself 1KB-aligned, so the "next 1KB-aligned size ≥ queued+incoming" is
33792 — but the code reallocates to `(⌊33792/1024⌋+1)*1024 = 34816`. -/
theorem C5_counterexample :
    (Buffer.init false).storage.length - (Buffer.init false).fOff < 33792 ∧
    33792 % 1024 = 0 ∧
    (Buffer.write (List.replicate 33792 0)
      (Buffer.init false)).storage.length = 34816 ∧
    (Buffer.write (List.replicate 33792 0)
      (Buffer.init false)).storage.length ≠ 33792 := by
  have h1 : (Buffer.init false).storage.length = 32768 := by
    show (List.replicate (32 * 1024) (0 : Nat)).length = 32768
    rw [List.length_replicate]
  have h0 : (Buffer.init false).fOff = 0 := rfl
  have hq0 : (Buffer.init false).qLen = 0 := rfl
  have hlen : (List.replicate 33792 (0 : Nat)).length = 33792 :=
    List.length_replicate ..
  have h2 := Buffer.write_storage_length
    (b := List.replicate 33792 (0 : Nat)) (Buffer.good_init false)
  rw [hlen, h1, h0, hq0] at h2
  rw [if_pos (by norm_num), if_pos (by norm_num)] at h2
  norm_num at h2
  exact ⟨by omega, by norm_num, h2, by omega⟩

/-- C5 (amended): when a `write` exceeds the free tail space, the code
reallocates only if the *total* capacity cannot hold `queued+incoming`, and
then to `(⌊(queued+incoming)/1024⌋+1)*1024` — the smallest whole-KiB size
*strictly greater* than `queued+incoming` (so 1KB-aligned and large
enough); when the capacity suffices it merely compacts the queued bytes to
the front without reallocating.  In every case the queued bytes are
preserved with the new bytes appended, and subsequent reads return exactly
the bytes a reallocation-free buffer would return. -/
theorem C5_amended (s : Buffer) (b : List Nat) (hg : s.good)
    (hfree : s.storage.length - s.fOff < b.length) :
    (s.storage.length < s.qLen + b.length →
      (Buffer.write b s).storage.length =
        ((s.qLen + b.length) / 1024 + 1) * 1024 ∧
      1024 ∣ (Buffer.write b s).storage.length ∧
      s.qLen + b.length < (Buffer.write b s).storage.length) ∧
    (s.qLen + b.length ≤ s.storage.length →
      (Buffer.write b s).storage.length = s.storage.length) ∧
    (Buffer.write b s).queuedBytes = s.queuedBytes ++ b ∧
    (Buffer.write b s).unread = s.unread ++ b ∧
    (∀ k, (Buffer.read k (Buffer.write b s)).1 = (s.unread ++ b).take k) := by
  refine ⟨?_, ?_, Buffer.write_queuedBytes hg, Buffer.unread_write hg, ?_⟩
  · intro hcap
    have h := Buffer.write_storage_length (b := b) hg
    rw [if_pos hfree, if_pos hcap] at h
    exact ⟨h, h ▸ dvd_mul_left 1024 _, h ▸ grow_size_gt _⟩
  · intro hcap
    have h := Buffer.write_storage_length (b := b) hg
    rw [if_pos hfree, if_neg (by omega)] at h
    exact h
  · intro k
    rw [Buffer.read_fst (Buffer.good_write hg), Buffer.unread_write hg]

/-- Witness for the amended C5 on a concrete over-capacity write. -/
theorem C5_amended_witness :
    (Buffer.write (List.replicate 32769 0)
        (Buffer.init false)).queuedBytes =
      (Buffer.init false).queuedBytes ++ List.replicate 32769 0 :=
  (C5_amended (Buffer.init false) (List.replicate 32769 0)
    (Buffer.good_init false)
    (by
      have h1 : (Buffer.init false).storage = List.replicate (32 * 1024) 0 := rfl
      have h2 : (Buffer.init false).fOff = 0 := rfl
      rw [h1, h2, List.length_replicate, List.length_replicate]
      norm_num)).2.2.1

/-- A `read n` immediately followed by `ack n` yields a well-formed state
whose unread window has simply lost its first `n` bytes. -/
theorem Buffer.ack_after_read {s : Buffer} {n : Nat} (hg : s.good)
    (ha : s.autoack = false) :
    (Buffer.ack n (Buffer.read n s).2).good ∧
    (Buffer.ack n (Buffer.read n s).2).unread = s.unread.drop n ∧
    (Buffer.ack n (Buffer.read n s).2).autoack = false := by
  have hg2 : (Buffer.read n s).2.good := Buffer.good_read hg
  have hu2 : (Buffer.read n s).2.unread = s.unread.drop n :=
    Buffer.unread_read_snd hg
  have hs2 := Buffer.read_snd_noauto (n := n) hg ha
  have hrc2 : (Buffer.read n s).2.readCount =
      s.readCount + ((s.unread.take n).length : Int) := by rw [hs2]
  have hql2 : (Buffer.read n s).2.qLen = s.qLen := by rw [hs2]
  have haa2 : (Buffer.read n s).2.autoack = false := by rw [hs2]; exact ha
  have hul := Buffer.unread_length hg
  have hL : (s.unread.take n).length = min n (s.qLen - s.readCount.toNat) := by
    simp only [List.length_take, hul]
  by_cases hcase : n ≤ s.qLen
  · have hcov : (n : Int) ≤ (Buffer.read n s).2.readCount := by
      rw [hrc2, hL]
      have h3 := hg.2.2.1
      have h4 := hg.2.2.2
      omega
    refine ⟨Buffer.good_ack hg2 (Or.inl hcov), ?_, ?_⟩
    · rw [Buffer.unread_ack_cov hg2 hcov, hu2]
    · unfold Buffer.ack
      split <;> exact haa2
  · have hfull : (Buffer.read n s).2.qLen ≤ n := by rw [hql2]; omega
    refine ⟨Buffer.good_ack hg2 (Or.inr hfull), ?_, ?_⟩
    · rw [Buffer.ack_ge hfull]
      have hlen : s.unread.length ≤ n := by rw [hul]; omega
      rw [List.drop_eq_nil_of_le hlen]
      rfl
    · rw [Buffer.ack_ge hfull]
      exact haa2

/-- A `read n` followed by an `ack` of exactly the bytes just returned (the
state the auto-ack mode produces): well-formed, unread window shifted by
`n`. -/
theorem Buffer.ack_read_len {s : Buffer} {n : Nat} (hg : s.good)
    (ha : s.autoack = false) :
    (Buffer.ack (Buffer.read n s).1.length (Buffer.read n s).2).good ∧
    (Buffer.ack (Buffer.read n s).1.length (Buffer.read n s).2).unread =
      s.unread.drop n ∧
    (Buffer.ack (Buffer.read n s).1.length (Buffer.read n s).2).autoack =
      false := by
  have hg2 : (Buffer.read n s).2.good := Buffer.good_read hg
  have hu2 : (Buffer.read n s).2.unread = s.unread.drop n :=
    Buffer.unread_read_snd hg
  have hs2 := Buffer.read_snd_noauto (n := n) hg ha
  have hret := Buffer.read_fst (n := n) hg
  have hrc2 : (Buffer.read n s).2.readCount =
      s.readCount + ((s.unread.take n).length : Int) := by rw [hs2]
  have haa2 : (Buffer.read n s).2.autoack = false := by rw [hs2]; exact ha
  have hcov : ((Buffer.read n s).1.length : Int) ≤
      (Buffer.read n s).2.readCount := by
    rw [hrc2, hret]
    have h3 := hg.2.2.1
    omega
  refine ⟨Buffer.good_ack hg2 (Or.inl hcov), ?_, ?_⟩
  · rw [Buffer.unread_ack_cov hg2 hcov, hu2]
  · unfold Buffer.ack
    split <;> exact haa2

/-- C7: `read(n)` returns (a view of) up to `n` unread bytes from the read
cursor — a short read when fewer are queued, empty when nothing is queued,
never an error — with the same bytes auto-ack mode's copy-and-ack read
returns; and `read(n)` immediately followed by `ack(n)` is, for the byte
content every well-formed continuation observes, the same as the buffer
that never retains the acked data (the auto-ack read's buffer state). -/
theorem C7_read_ack_equiv (s : Buffer) (n : Nat) (ops : List BufOp)
    (hg : s.good) (ha : s.autoack = false)
    (hwf : wfOps (Buffer.ack n (Buffer.read n s).2) 0 ops) :
    (Buffer.read n s).1 = s.unread.take n ∧
    (s.unread = [] → (Buffer.read n s).1 = []) ∧
    (Buffer.read n { s with autoack := true }).1 = (Buffer.read n s).1 ∧
    (Buffer.read n { s with autoack := true }).2 =
      { Buffer.ack (Buffer.read n s).1.length (Buffer.read n s).2 with
          autoack := true } ∧
    runOps (Buffer.ack n (Buffer.read n s).2) ops =
      runOps (Buffer.ack (Buffer.read n s).1.length (Buffer.read n s).2)
        ops := by
  obtain ⟨hgood1, hu1, haa1⟩ := Buffer.ack_after_read (n := n) hg ha
  obtain ⟨hgood2, hu2, haa2⟩ := Buffer.ack_read_len (n := n) hg ha
  have hav := Buffer.read_auto_vs_manual (n := n) hg ha
  refine ⟨Buffer.read_fst hg, ?_, hav.1, hav.2,
    (runOps_congr_unread ops _ _ 0 hgood1 hgood2 haa1 haa2
      (by rw [hu1, hu2]) ?_ ?_ hwf).1⟩
  · intro h
    rw [Buffer.read_fst hg, h, List.take_nil]
  · have := hgood1.2.2.1
    omega
  · have := hgood2.2.2.1
    omega

/-- Witness for C7 on a fresh buffer. -/
theorem C7_read_ack_equiv_witness :
    (Buffer.read 1 (Buffer.init false)).1 =
      (Buffer.init false).unread.take 1 :=
  (C7_read_ack_equiv (Buffer.init false) 1 [] (Buffer.good_init false) rfl
    trivial).1

/-- `sendWrite_` when there is data, no request in flight and no backoff:
read up to 1024 bytes, mark the request busy, remember its size. -/
theorem XHR.sendWrite_go {s : XHR} (hq : s.writeBuffer.getQueuedBytes ≠ 0)
    (hbusy : s.writeBusy = false) (hbo : s.backoffTimeout = false) :
    XHR.sendWrite s =
      ({ s with writeBuffer := (Buffer.read 1024 s.writeBuffer).2,
                writeBusy := true,
                lastWriteSize := (Buffer.read 1024 s.writeBuffer).1.length },
       ⟨some (Buffer.read 1024 s.writeBuffer).1, some s.writeCount⟩) := by
  simp only [XHR.sendWrite, GoogleRelayXHR.maxMessageLength]
  rw [if_neg (by simp [hq, hbusy]), if_neg (by simp [hbo])]

/-- Projection-level reading of a successful `sendWrite_`. -/
theorem XHR.sendWrite_parts {s : XHR} (hq : s.writeBuffer.getQueuedBytes ≠ 0)
    (hbusy : s.writeBusy = false) (hbo : s.backoffTimeout = false) :
    (XHR.sendWrite s).1.writeBuffer = (Buffer.read 1024 s.writeBuffer).2 ∧
    (XHR.sendWrite s).1.lastWriteSize =
      (Buffer.read 1024 s.writeBuffer).1.length ∧
    (XHR.sendWrite s).1.writeCount = s.writeCount ∧
    (XHR.sendWrite s).1.backoffTimeout = s.backoffTimeout ∧
    (XHR.sendWrite s).2.sentData = some (Buffer.read 1024 s.writeBuffer).1 ∧
    (XHR.sendWrite s).2.sentWcnt = some s.writeCount := by
  rw [XHR.sendWrite_go hq hbusy hbo]
  exact ⟨rfl, rfl, rfl, rfl, rfl, rfl⟩

/-- `asyncWrite` on non-empty data without a pending backoff timer queues
the bytes and immediately tries to send. -/
theorem XHR.asyncWrite_go {s : XHR} {data : List Nat} (hd : data.length ≠ 0)
    (hbo : s.backoffTimeout = false) :
    XHR.asyncWrite data s =
      XHR.sendWrite { s with writeBuffer := Buffer.write data s.writeBuffer } := by
  simp only [XHR.asyncWrite]
  rw [if_neg hd, if_pos (by simp [hbo])]

/-- `onWriteDone_` on HTTP 200 without a pending timer: ack the sent bytes,
advance `writeCount_`, re-run `sendWrite_`, and fire the callback with the
new count. -/
theorem XHR.onWriteDone_200 {s : XHR} (hbo : s.backoffTimeout = false) :
    XHR.onWriteDone 200 s =
      ((XHR.sendWrite { s with
                        writeBusy := false,
                        writeBuffer := Buffer.ack s.lastWriteSize s.writeBuffer,
                        writeCount := s.writeCount + s.lastWriteSize,
                        backoffMS := 0, backoffTimeout := false }).1,
       ⟨false, none, some ⟨false, false, false, true⟩,
        (XHR.sendWrite { s with
                         writeBusy := false,
                         writeBuffer := Buffer.ack s.lastWriteSize s.writeBuffer,
                         writeCount := s.writeCount + s.lastWriteSize,
                         backoffMS := 0, backoffTimeout := false }).2,
        some (s.writeCount + s.lastWriteSize)⟩) := by
  simp only [XHR.onWriteDone]
  rw [if_neg (by norm_num), if_neg (by norm_num)]
  rw [Relay.requestSuccess_fst, Relay.requestSuccess_snd]
  simp only [hbo, Bool.false_eq_true, if_false, if_true]

/-- `onWriteDone_` on HTTP 200, healthy backoff, with more data still
queued after the ack: `writeCount_` advances by the request size, the
callback fires with the new count, and the follow-up `sendWrite_` sends
the next chunk of the acked buffer. -/
theorem XHR.onWriteDone_200_go {s : XHR} (hbo : s.backoffTimeout = false)
    (hq : (Buffer.ack s.lastWriteSize s.writeBuffer).getQueuedBytes ≠ 0) :
    (XHR.onWriteDone 200 s).1.writeCount = s.writeCount + s.lastWriteSize ∧
    (XHR.onWriteDone 200 s).2.writeCallback =
      some (s.writeCount + s.lastWriteSize) ∧
    (XHR.onWriteDone 200 s).2.nextSend.sentData =
      some (Buffer.read 1024 (Buffer.ack s.lastWriteSize s.writeBuffer)).1 ∧
    (XHR.onWriteDone 200 s).2.nextSend.sentWcnt =
      some (s.writeCount + s.lastWriteSize) := by
  rw [XHR.onWriteDone_200 hbo]
  have hsw := XHR.sendWrite_go
    (s := { s with writeBusy := false,
                   writeBuffer := Buffer.ack s.lastWriteSize s.writeBuffer,
                   writeCount := s.writeCount + s.lastWriteSize,
                   backoffMS := 0, backoffTimeout := false })
    hq rfl rfl
  rw [hsw]
  exact ⟨rfl, rfl, rfl, rfl⟩

/-- C9: polling transport end-to-end — after the handshake, queuing 2000
bytes makes `sendWrite_` read and transmit exactly the first 1024 bytes
with `wcnt=0`; when the relay acknowledges (HTTP 200), the outbound buffer
is acked down to exactly 976 queued bytes, `writeCount_` advances to 1024,
the write callback fires with 1024, and the immediately re-run
`sendWrite_` transmits exactly the remaining 976 bytes. -/
theorem C9_polling_scenario (ws : List Nat) (h : ws.length = 2000) :
    (XHR.asyncWrite ws XHR.opened).2.sentData = some (ws.take 1024) ∧
    (ws.take 1024).length = 1024 ∧
    (XHR.asyncWrite ws XHR.opened).2.sentWcnt = some 0 ∧
    (Buffer.ack (XHR.asyncWrite ws XHR.opened).1.lastWriteSize
        (XHR.asyncWrite ws XHR.opened).1.writeBuffer).getQueuedBytes = 976 ∧
    (XHR.onWriteDone 200 (XHR.asyncWrite ws XHR.opened).1).1.writeCount = 1024 ∧
    (XHR.onWriteDone 200 (XHR.asyncWrite ws XHR.opened).1).2.writeCallback =
      some 1024 ∧
    (XHR.onWriteDone 200 (XHR.asyncWrite ws XHR.opened).1).2.nextSend.sentData =
      some (ws.drop 1024) ∧
    (ws.drop 1024).length = 976 := by
  have hg0 := Buffer.good_init false
  have hg1 : (Buffer.write ws (Buffer.init false)).good := Buffer.good_write hg0
  have hu1 : (Buffer.write ws (Buffer.init false)).unread = ws := by
    rw [Buffer.unread_write hg0,
      show (Buffer.init false).unread = [] from rfl, List.nil_append]
  have hgq1 : (Buffer.write ws (Buffer.init false)).getQueuedBytes = 2000 := by
    rw [Buffer.getQueuedBytes_eq_unread_length hg1, hu1, h]
    norm_num
  have hr1 : (Buffer.read 1024 (Buffer.write ws (Buffer.init false))).1 =
      ws.take 1024 := by
    rw [Buffer.read_fst hg1, hu1]
  have hlen1 : (ws.take 1024).length = 1024 := by
    rw [List.length_take, h]
    exact min_eq_left (by norm_num)
  have ha1 : (Buffer.write ws (Buffer.init false)).autoack = false := by
    rw [Buffer.write_autoack]
    rfl
  obtain ⟨hg3, hu3, _⟩ := Buffer.ack_read_len (n := 1024) hg1 ha1
  rw [hu1] at hu3
  have hdlen : (ws.drop 1024).length = 976 := by
    rw [List.length_drop, h]
  have hgq3 : (Buffer.ack
      (Buffer.read 1024 (Buffer.write ws (Buffer.init false))).1.length
      (Buffer.read 1024 (Buffer.write ws (Buffer.init false))).2).getQueuedBytes
      = 976 := by
    rw [Buffer.getQueuedBytes_eq_unread_length hg3, hu3, hdlen]
    norm_num
  have hr2 : (Buffer.read 1024 (Buffer.ack
      (Buffer.read 1024 (Buffer.write ws (Buffer.init false))).1.length
      (Buffer.read 1024 (Buffer.write ws (Buffer.init false))).2)).1 =
      ws.drop 1024 := by
    rw [Buffer.read_fst hg3, hu3]
    exact List.take_of_length_le (by rw [hdlen]; norm_num)
  have hob : XHR.opened.writeBuffer = Buffer.init false := rfl
  have e0 : ({ XHR.opened with
               writeBuffer := Buffer.write ws XHR.opened.writeBuffer } :
      XHR).writeBuffer = Buffer.write ws (Buffer.init false) := by
    rw [hob]
  have e0b : ({ XHR.opened with
                writeBuffer := Buffer.write ws XHR.opened.writeBuffer } :
      XHR).backoffTimeout = false := rfl
  have e0c : ({ XHR.opened with
                writeBuffer := Buffer.write ws XHR.opened.writeBuffer } :
      XHR).writeBusy = false := rfl
  have e0w : ({ XHR.opened with
                writeBuffer := Buffer.write ws XHR.opened.writeBuffer } :
      XHR).writeCount = 0 := rfl
  have hA := @XHR.asyncWrite_go XHR.opened ws
    (by rw [h]; norm_num) rfl
  have hS := XHR.sendWrite_parts
    (s := { XHR.opened with
            writeBuffer := Buffer.write ws XHR.opened.writeBuffer })
    (by rw [e0, hgq1]; norm_num) e0c e0b
  obtain ⟨hS1, hS2, hS3, hS4, hS5, hS6⟩ := hS
  rw [e0] at hS1 hS2 hS5
  rw [e0b] at hS4
  rw [e0w] at hS3 hS6
  have eL : (XHR.asyncWrite ws XHR.opened).1.lastWriteSize =
      (Buffer.read 1024 (Buffer.write ws (Buffer.init false))).1.length := by
    rw [hA, hS2]
  have eWB : (XHR.asyncWrite ws XHR.opened).1.writeBuffer =
      (Buffer.read 1024 (Buffer.write ws (Buffer.init false))).2 := by
    rw [hA, hS1]
  have eWC : (XHR.asyncWrite ws XHR.opened).1.writeCount = 0 := by
    rw [hA, hS3]
  have hbo1 : (XHR.asyncWrite ws XHR.opened).1.backoffTimeout = false := by
    rw [hA, hS4]
  have hqA : (Buffer.ack (XHR.asyncWrite ws XHR.opened).1.lastWriteSize
      (XHR.asyncWrite ws XHR.opened).1.writeBuffer).getQueuedBytes ≠ 0 := by
    rw [eL, eWB, hgq3]
    norm_num
  obtain ⟨hD1, hD2, hD3, _⟩ := XHR.onWriteDone_200_go hbo1 hqA
  refine ⟨?_, hlen1, ?_, ?_, ?_, ?_, ?_, hdlen⟩
  · rw [hA, hS5, hr1]
  · rw [hA, hS6]
  · rw [eL, eWB, hgq3]
  · rw [hD1, eWC, eL, hr1, hlen1]
  · rw [hD2, eWC, eL, hr1, hlen1]
  · rw [hD3, eL, eWB, hr2]

/-- Witness for C9 on a concrete 2000-byte write. -/
theorem C9_polling_scenario_witness :
    (XHR.asyncWrite (List.replicate 2000 0) XHR.opened).2.sentData =
      some ((List.replicate 2000 0).take 1024) :=
  (C9_polling_scenario (List.replicate 2000 0)
    (by rw [List.length_replicate])).1
/-- The XHR transport's `sendWrite_` never moves `writeCount_`. -/
theorem XHR.sendWrite_wcount (s : XHR) :
    (XHR.sendWrite s).1.writeCount = s.writeCount := by
  simp only [XHR.sendWrite]
  split
  · rfl
  · split <;> rfl

/-- The WebSocket transport's `sendWrite_` never moves `writeCount_`, on any
of its paths. -/
theorem WS.sendWrite_writeCount (now : Nat) (s : WS) :
    (WS.sendWrite now s).1.writeCount = s.writeCount := by
  simp only [WS.sendWrite]
  split
  · rfl
  · split <;> rfl

/-- Projection-level reading of a successful WebSocket `sendWrite_`. -/
theorem WS.sendWrite_open_proj {now : Nat} {s : WS} (hsock : s.socketOpen = true)
    (hq : s.writeBuffer.getQueuedBytes ≠ 0) (hbo : s.backoffTimeout = false) :
    (WS.sendWrite now s).2.writeCallback = some s.writeCount ∧
    (WS.sendWrite now s).2.sentFrame =
      some (toBE4 (s.readCount % 16777216) ++
        (Buffer.read (32 * 1024 - 4) s.writeBuffer).1) ∧
    (WS.sendWrite now s).1.writeBuffer =
      (Buffer.read (32 * 1024 - 4) s.writeBuffer).2 ∧
    (WS.sendWrite now s).1.expectedAck = s.writeCount % 16777216 := by
  simp only [WS.sendWrite, GoogleRelayWS.maxMessageLength]
  rw [if_neg (by simp [hsock, hq]), if_neg (by simp [hbo])]
  exact ⟨rfl, rfl, rfl, rfl⟩

/-- `onSocketData_` advances `writeCount_` by exactly the delta it reports
(0 on the throw and fatal paths). -/
theorem WS.onSocketData_writeCount (now : Nat) (frame : List Nat) (s : WS) :
    (WS.onSocketData now frame s).1.writeCount =
      s.writeCount + (WS.onSocketData now frame s).2.delta := by
  by_cases h4 : frame.length < 4
  · simp only [WS.onSocketData, if_pos h4]; omega
  · by_cases hack : 16777215 < beUint32 frame
    · simp only [WS.onSocketData, if_neg h4, if_pos hack]; omega
    · obtain ⟨hd, hwc, _⟩ := WS.onSocketData_main h4 hack
      rw [hwc, hd]

/-- Over any event sequence, `writeCount_` grows by exactly the sum of the
relay-acknowledged deltas. -/
theorem WS.run_writeCount :
    ∀ (evs : List WSEv) (s : WS),
      (WS.run s evs).writeCount = s.writeCount + WS.runDeltas s evs := by
  intro evs
  induction evs with
  | nil => intro s; simp [WS.run, WS.runDeltas]
  | cons ev es ih =>
    intro s
    cases ev with
    | send n =>
      simp only [WS.run, WS.runDeltas]
      rw [ih, WS.sendWrite_writeCount]
    | frame n f =>
      simp only [WS.run, WS.runDeltas]
      rw [ih, WS.onSocketData_writeCount]
      omega

/-- C10: in the WebSocket transport, a `sendWrite_` that transmits a frame
invokes the write-success callback immediately with the *current*
`writeCount_` — which it does not advance, and which at that moment equals
the initial count plus exactly the deltas already acknowledged by the
relay, excluding the payload just sent; `writeCount_` advances only when
an inbound ack frame arrives.  The polling transport instead advances
`writeCount_` by the completed request's size before firing the
callback. -/
theorem C10_ws_callback_timing (sw : WS) (sx : XHR) (now now2 : Nat)
    (frame : List Nat) (evs : List WSEv)
    (hsock : sw.socketOpen = true)
    (hq : sw.writeBuffer.getQueuedBytes ≠ 0)
    (hbo : sw.backoffTimeout = false)
    (hxbo : sx.backoffTimeout = false) :
    (WS.sendWrite now sw).2.writeCallback = some sw.writeCount ∧
    (WS.sendWrite now sw).1.writeCount = sw.writeCount ∧
    (WS.onSocketData now2 frame sw).1.writeCount =
      sw.writeCount + (WS.onSocketData now2 frame sw).2.delta ∧
    (WS.run sw evs).writeCount = sw.writeCount + WS.runDeltas sw evs ∧
    (XHR.onWriteDone 200 sx).2.writeCallback =
      some (sx.writeCount + sx.lastWriteSize) ∧
    (XHR.onWriteDone 200 sx).1.writeCount =
      sx.writeCount + sx.lastWriteSize := by
  refine ⟨(WS.sendWrite_open_proj hsock hq hbo).1,
    WS.sendWrite_writeCount now sw,
    WS.onSocketData_writeCount now2 frame sw,
    WS.run_writeCount evs sw, ?_, ?_⟩
  · rw [XHR.onWriteDone_200 hxbo]
  · rw [XHR.onWriteDone_200 hxbo, XHR.sendWrite_wcount]
/-- Witness for C10 on concrete transport states. -/
theorem C10_ws_callback_timing_witness :
    (WS.sendWrite 0 wsSample).2.writeCallback = some 0 :=
  (C10_ws_callback_timing wsSample XHR.opened 0 0 [0, 0, 0, 0] [] rfl
    (by
      rw [show wsSample.writeBuffer = Buffer.write [7] (Buffer.init false)
            from rfl]
      rw [Buffer.getQueuedBytes_eq_unread_length
        (Buffer.good_write (Buffer.good_init false)),
        Buffer.unread_write (Buffer.good_init false),
        show (Buffer.init false).unread = [] from rfl, List.nil_append]
      norm_num)
    rfl rfl).1

end Nassh
